import Mathlib

/-!
dstate: the member record and its merge operations.

A shallow embedding of `memberstate.go` (package `dstate`): the `MemberState`
record, the avatar codec (`ParseAvatar` / `StrAvatar`), the membership merge
(`MSFromDGoMember`, `UpdateMember`) and the presence merge (`UpdatePresence`).

Conventions of the embedding.

* A Go `string` is a list of bytes; a `[n]byte` array is a list of exactly `n` bytes.
* A method that mutates its receiver in place becomes a function from the
  receiver's fields before the call to an `Outcome`: the receiver's fields when
  control leaves the method, together with a flag telling whether control left
  through a run-time panic (an index out of range) rather than a return.
* Payload pointers (`*discordgo.Member`, `*discordgo.User`, `*discordgo.Presence`,
  the elements of `Activities`) are taken to be non-nil and are embedded as values.
* The Go standard library functions the file calls (`strings.HasPrefix`,
  `hex.Encode`, `hex.Decode`, `strconv.ParseInt`) are embedded from their Go
  sources. `time.Parse` is a parameter of the development: a function from the
  text to the instant it denotes, if any; so is `Time.Format`, a function from the
  instant to its text.
* A pointer to a record is an address in a store of records where the claim is
  about distinct records in memory (`CopyAt`); elsewhere a record is its fields.
-/

namespace Dstate

/-! ## Go values -/

/-- A Go `byte`. Arithmetic on it wraps modulo 256. -/
abbrev Byte := Fin 256

/-- A Go `string`: a sequence of bytes. -/
abbrev GoString := List Byte

/-- The bytes of a string literal, that is its UTF-8 encoding. -/
def goStr (s : String) : GoString :=
  s.data.flatMap (fun c => (String.utf8EncodeChar c).map (fun u => u.val))

/-- A Go array `[n]byte`. -/
abbrev Bytes (n : Nat) := { l : List Byte // l.length = n }

/-- The zero value of `[n]byte`. -/
def Bytes.zero (n : Nat) : Bytes n := ⟨List.replicate n 0, by simp⟩

/-- The assignment `a[i] = v` with `i` in range. -/
def Bytes.set {n : Nat} (a : Bytes n) (i : Fin n) (v : Byte) : Bytes n :=
  ⟨a.val.set i.val v, by simp [a.property]⟩

/-- Go `strings.HasPrefix(s, prefix)`:
`len(s) >= len(prefix) && s[:len(prefix)] == prefix`. -/
def stringsHasPrefix (s pre : GoString) : Bool :=
  decide (pre.length ≤ s.length) && (s.take pre.length == pre)

/-- A `time.Time`, as the number of nanoseconds elapsed since the zero `Time`
(January 1, year 1, 00:00:00 UTC). The zero value of the type is `0`. -/
abbrev GoTime := Int

/-- The conversion `int32(x)` of an `int64`: keep the low 32 bits, two's complement. -/
def toInt32 (x : Int) : Int := (x + 2 ^ 31) % 2 ^ 32 - 2 ^ 31

/-! ## encoding/hex -/

/-- Go `hex.hextable`. -/
def hextable : GoString := goStr "0123456789abcdef"

/-- Go `hex.fromHexChar`: the value of a hexadecimal digit, `none` for any other byte. -/
def fromHexChar (c : Byte) : Option Byte :=
  if 48 ≤ c ∧ c ≤ 57 then some (c - 48)
  else if 97 ≤ c ∧ c ≤ 102 then some (c - 97 + 10)
  else if 65 ≤ c ∧ c ≤ 70 then some (c - 65 + 10)
  else none

/-- The loop of Go `hex.Encode(dst, src)`, at index `i` of `src`:
`dst[i*2] = hextable[v>>4]; dst[i*2+1] = hextable[v&0x0f]`.
`none` is an index-out-of-range panic. -/
def hexEncodeLoop {n : Nat} (dst : Bytes n) (i : Nat) : List Byte → Option (Bytes n)
  | [] => some dst
  | v :: rest =>
    if h0 : i * 2 < n then
      let dst0 := dst.set ⟨i * 2, h0⟩ (hextable.getD (v.val >>> 4) 0)
      if h1 : i * 2 + 1 < n then
        hexEncodeLoop (dst0.set ⟨i * 2 + 1, h1⟩ (hextable.getD (v.val &&& 15) 0)) (i + 1) rest
      else none
    else none

/-- Go `hex.Encode(dst, src)`; the returned length is dropped, as the caller drops it. -/
def hexEncode {n : Nat} (dst : Bytes n) (src : List Byte) : Option (Bytes n) :=
  hexEncodeLoop dst 0 src

/-- The errors of Go `hex.Decode`. -/
inductive HexError where
  | InvalidByteError (b : Byte)
  | ErrLength
  deriving DecidableEq, Repr

/-- How a call of `hex.Decode` ends: a return of `(n, err)`, or an
index-out-of-range panic at the write `dst[i] = ...`. -/
inductive DecodeExit where
  | returned (n : Nat) (err : Option HexError)
  | indexOutOfRange
  deriving DecidableEq, Repr

/-- The loop of Go `hex.Decode(dst, src)` (Go 1.10 and later) with `i` bytes
decoded so far: each pair of digits is checked, then written to `dst[i]` with no
check of `len(dst)`; the first byte that is no digit ends the call with
`InvalidByteError`, a trailing single digit with `ErrLength`. The first component
is what `dst` holds when the call ends. -/
def hexDecodeLoop {n : Nat} (dst : Bytes n) (i : Nat) : List Byte → Bytes n × DecodeExit
  | [] => (dst, .returned i none)
  | [p] =>
    match fromHexChar p with
    | none => (dst, .returned i (some (.InvalidByteError p)))
    | some _ => (dst, .returned i (some .ErrLength))
  | p :: q :: rest =>
    match fromHexChar p with
    | none => (dst, .returned i (some (.InvalidByteError p)))
    | some a =>
      match fromHexChar q with
      | none => (dst, .returned i (some (.InvalidByteError q)))
      | some b =>
        if h : i < n then
          hexDecodeLoop (dst.set ⟨i, h⟩ (Fin.ofNat ((a.val <<< 4) ||| b.val))) (i + 1) rest
        else (dst, .indexOutOfRange)

/-- Go `hex.Decode(dst, src)`. -/
def hexDecode {n : Nat} (dst : Bytes n) (src : List Byte) : Bytes n × DecodeExit :=
  hexDecodeLoop dst 0 src

/-! ## strconv -/

/-- The error kinds of Go `strconv.NumError` that `ParseInt` can report for a
valid base and bit size. -/
inductive NumError where
  | ErrSyntax
  | ErrRange
  deriving DecidableEq, Repr

/-- Go `strconv.lower`: `c | ('x' - 'X')`. -/
def lower (c : Byte) : Byte := Fin.ofNat (c.val ||| 32)

/-- The digit loop of Go `strconv.ParseUint` for a base between 2 and 36, with the
`uint64` accumulator `n`. A byte that is no digit of the base ends the call with
`(0, ErrSyntax)`; an accumulator that would exceed `maxVal` ends it at once with
`(maxVal, ErrRange)`, whatever bytes follow. -/
def parseUintLoop (base cutoff maxVal : Nat) (n : Nat) : List Byte → Nat × Option NumError
  | [] => (n, none)
  | c :: rest =>
    let digit : Option Byte :=
      if 48 ≤ c ∧ c ≤ 57 then some (c - 48)
      else if 97 ≤ lower c ∧ lower c ≤ 122 then some (lower c - 97 + 10)
      else none
    match digit with
    | none => (0, some .ErrSyntax)
    | some d =>
      if base % 256 ≤ d.val then (0, some .ErrSyntax)
      else if cutoff ≤ n then (maxVal, some .ErrRange)
      else
        let n0 := (n * base) % 2 ^ 64
        let n1 := (n0 + d.val) % 2 ^ 64
        if n1 < n0 ∨ maxVal < n1 then (maxVal, some .ErrRange)
        else parseUintLoop base cutoff maxVal n1 rest

/-- Go `strconv.ParseUint(s, base, bitSize)` for `2 <= base <= 36` and
`0 < bitSize <= 64`: the value and the error. -/
def ParseUint (s : GoString) (base bitSize : Nat) : Nat × Option NumError :=
  if s = [] then (0, some .ErrSyntax)
  else parseUintLoop base ((2 ^ 64 - 1) / base + 1) (2 ^ bitSize - 1) 0 s

/-- The conversion `int64(x)` of a `uint64`. -/
def toInt64 (x : Int) : Int := (x + 2 ^ 63) % 2 ^ 64 - 2 ^ 63

/-- Go `strconv.ParseInt(s, base, bitSize)` for `2 <= base <= 36` and
`0 < bitSize <= 64`: a leading sign is picked off and the rest goes through
`ParseUint`. A syntax error gives `0`; a value that does not fit gives the
largest-magnitude value of the bit size and that sign, with `ErrRange`. -/
def ParseInt (s : GoString) (base bitSize : Nat) : Int × Option NumError :=
  match s with
  | [] => (0, some .ErrSyntax)
  | c :: t =>
    let neg : Bool := c == 45
    let s1 : GoString := if c == 43 || c == 45 then t else s
    let r := ParseUint s1 base bitSize
    if r.2 = some .ErrSyntax then (0, some .ErrSyntax)
    else
      let cutoff : Nat := 2 ^ (bitSize - 1)
      if !neg && decide (cutoff ≤ r.1) then (toInt64 (cutoff - 1 : Nat), some .ErrRange)
      else if neg && decide (cutoff < r.1) then (toInt64 (-(cutoff : Int)), some .ErrRange)
      else
        let n := toInt64 r.1
        (if neg then toInt64 (-n) else n, none)

/-- The decimal digits of a natural number, as bytes. -/
def decimal (n : Nat) : GoString := (Nat.toDigits 10 n).map (fun c => Fin.ofNat c.toNat)

/-- Go `strconv.FormatInt(i, 10)`. -/
def FormatInt10 (i : Int) : GoString :=
  if i < 0 then (45 : Byte) :: decimal i.natAbs else decimal i.natAbs

/-! ## The record and the payloads -/

/-- Go `type PresenceStatus int32`. -/
abbrev PresenceStatus := Int

def StatusNotSet : PresenceStatus := 0
def StatusOnline : PresenceStatus := 1
def StatusIdle : PresenceStatus := 2
def StatusDoNotDisturb : PresenceStatus := 3
def StatusInvisible : PresenceStatus := 4
def StatusOffline : PresenceStatus := 5

/-- Go `LightGame`; the field `Type` is written `Typ`. -/
structure LightGame where
  Name : GoString
  URL : GoString
  Details : GoString
  State : GoString
  Typ : Int
  deriving DecidableEq, Repr

/-- Go `MemberState`. `Guild` is the address held by the pointer (`none` for nil);
`PresenceGame` is the `*LightGame` (`none` for nil, else the value pointed to). -/
structure MemberState where
  Guild : Option Nat
  ID : Int
  JoinedAt : GoTime
  Nick : GoString
  Roles : List Int
  PresenceStatus : PresenceStatus
  PresenceGame : Option LightGame
  Username : GoString
  Avatar : Bytes 16
  Discriminator : Int
  AnimatedAvatar : Bool
  Bot : Bool
  MemberSet : Bool
  PresenceSet : Bool
  deriving DecidableEq, Repr

/-- The zero value of `MemberState`. -/
def MemberState.zero : MemberState :=
  { Guild := none, ID := 0, JoinedAt := 0, Nick := [], Roles := [],
    PresenceStatus := 0, PresenceGame := none, Username := [],
    Avatar := Bytes.zero 16, Discriminator := 0, AnimatedAvatar := false,
    Bot := false, MemberSet := false, PresenceSet := false }

/-- The fields of `discordgo.User` that the file reads or writes. -/
structure User where
  ID : Int
  Username : GoString
  Avatar : GoString
  Discriminator : GoString
  Bot : Bool
  deriving DecidableEq, Repr

/-- The fields of `discordgo.Member` that the file reads or writes;
`JoinedAt` is a `discordgo.Timestamp`, a string type. -/
structure Member where
  JoinedAt : GoString
  Nick : GoString
  User : User
  Roles : List Int
  deriving DecidableEq, Repr

/-- The fields of `discordgo.Game` that the file reads; `Type` is written `Typ`. -/
structure Game where
  Name : GoString
  URL : GoString
  Details : GoString
  State : GoString
  Typ : Int
  deriving DecidableEq, Repr

/-- The fields of `discordgo.Presence` that the file reads; `Status` is a string type. -/
structure Presence where
  User : User
  Status : GoString
  Activities : List Game
  Nick : GoString
  deriving DecidableEq, Repr

/-- The receiver of a method when control leaves it, and whether it left by a panic. -/
structure Outcome where
  state : MemberState
  panicked : Bool
  deriving DecidableEq, Repr

/-- Go `discordgo.Timestamp.Parse`, that is `time.Parse(time.RFC3339, string(t))`,
over a reading `rfc3339` of timestamp texts: on failure `time.Parse` returns the
zero `Time` and an error. The second component tells whether the error is non-nil. -/
def TimestampParse (rfc3339 : GoString → Option GoTime) (t : GoString) : GoTime × Bool :=
  match rfc3339 t with
  | some v => (v, false)
  | none => (0, true)

/-! ## The avatar codec -/

/-- Go `(*MemberState).ParseAvatar`: the animated marker `a_` is stripped and sets
the flag, then `hex.Decode(m.Avatar[:], []byte(str))` writes into the existing hash;
what `Decode` returns is discarded. The call panics when `Decode` writes past the
16th byte. -/
def ParseAvatar (m : MemberState) (str : GoString) : Outcome :=
  let animated := stringsHasPrefix str (goStr "a_")
  let str1 : GoString := if animated then str.drop 2 else str
  let r := hexDecode m.Avatar str1
  { state := { m with AnimatedAvatar := animated, Avatar := r.1 },
    panicked := r.2 == DecodeExit.indexOutOfRange }

/-- Go `ZeroAvatar`. -/
def ZeroAvatar : Bytes 16 := Bytes.zero 16

/-- Go `(*MemberState).StrAvatar`: the empty string for the zero hash, else the
hash encoded into a fresh 32-byte slice, after `a_` when the avatar is animated.
`none` is a panic inside `hex.Encode`. -/
def StrAvatar (m : MemberState) : Option GoString :=
  if m.Avatar = ZeroAvatar then some []
  else
    match hexEncode (Bytes.zero 32) m.Avatar.val with
    | none => none
    | some dst =>
      let str : GoString := dst.val
      some (if m.AnimatedAvatar then goStr "a_" ++ str else str)

/-! ## The membership merge -/

/-- Go `MSFromDGoMember`: a new record from a membership payload. `none` is a panic
(inside `ParseAvatar`), in which case no record is returned. -/
def MSFromDGoMember (rfc3339 : GoString → Option GoTime) (gs : Option Nat)
    (member : Member) : Option MemberState :=
  let ms : MemberState :=
    { MemberState.zero with
      Guild := gs, ID := member.User.ID, Roles := member.Roles,
      Username := member.User.Username, Nick := member.Nick,
      Bot := member.User.Bot, MemberSet := true }
  let r := ParseAvatar ms member.User.Avatar
  if r.panicked then none
  else
    let discrim := (ParseInt member.User.Discriminator 10 32).1
    some { r.state with
      Discriminator := toInt32 discrim,
      JoinedAt := (TimestampParse rfc3339 member.JoinedAt).1 }

/-- Go `(*MemberState).UpdateMember`. The assignments run in the order of the
source, so a panic inside `ParseAvatar` leaves the discriminator and `MemberSet`
as they were. -/
def UpdateMember (rfc3339 : GoString → Option GoTime) (m : MemberState)
    (member : Member) : Outcome :=
  let m1 : MemberState :=
    if member.JoinedAt ≠ [] then
      { m with JoinedAt := (TimestampParse rfc3339 member.JoinedAt).1 }
    else m
  let m2 : MemberState :=
    { m1 with Roles := member.Roles, Nick := member.Nick, Username := member.User.Username }
  let r := ParseAvatar m2 member.User.Avatar
  if r.panicked then r
  else
    let discrim := (ParseInt member.User.Discriminator 10 32).1
    { state := { r.state with Discriminator := toInt32 discrim, MemberSet := true },
      panicked := false }

/-! ## The presence merge -/

/-- The loop `for i, v := range presence.Activities` of `UpdatePresence`, at index
`i` with `cur` the value of `mainActivity` so far. -/
def mainActivityLoop (cur : Option Game) (i : Nat) : List Game → Option Game
  | [] => cur
  | v :: rest => mainActivityLoop (if i == 0 || v.Typ == 1 then some v else cur) (i + 1) rest

/-- The `discordgo.Status` constants. -/
def dgoStatusOnline : GoString := goStr "online"
def dgoStatusIdle : GoString := goStr "idle"
def dgoStatusDoNotDisturb : GoString := goStr "dnd"
def dgoStatusInvisible : GoString := goStr "invisible"
def dgoStatusOffline : GoString := goStr "offline"

/-- Go `(*MemberState).UpdatePresence`. The assignments run in the order of the
source, so a panic inside `ParseAvatar` leaves the presence status as it was. -/
def UpdatePresence (m : MemberState) (presence : Presence) : Outcome :=
  let m0 : MemberState := { m with PresenceSet := true }
  let mainActivity := mainActivityLoop none 0 presence.Activities
  let m1 : MemberState :=
    match mainActivity with
    | none => { m0 with PresenceGame := none }
    | some a =>
      let game : LightGame :=
        { Name := a.Name, Details := a.Details, URL := a.URL, State := a.State, Typ := a.Typ }
      { m0 with PresenceGame := some game }
  let m2 : MemberState := if !m1.MemberSet then { m1 with Nick := presence.Nick } else m1
  let m3 : MemberState :=
    if presence.User.Username ≠ [] then { m2 with Username := presence.User.Username } else m2
  let m4 : MemberState :=
    if presence.User.Discriminator ≠ [] then
      { m3 with Discriminator := toInt32 (ParseInt presence.User.Discriminator 10 32).1 }
    else m3
  let r : Outcome :=
    if presence.User.Avatar ≠ [] then ParseAvatar m4 presence.User.Avatar
    else { state := m4, panicked := false }
  if r.panicked then r
  else
    let m5 := r.state
    let m6 : MemberState :=
      if presence.Status ≠ [] then
        if presence.Status = dgoStatusOnline then { m5 with PresenceStatus := StatusOnline }
        else if presence.Status = dgoStatusIdle then { m5 with PresenceStatus := StatusIdle }
        else if presence.Status = dgoStatusDoNotDisturb then
          { m5 with PresenceStatus := StatusDoNotDisturb }
        else if presence.Status = dgoStatusInvisible then
          { m5 with PresenceStatus := StatusInvisible }
        else if presence.Status = dgoStatusOffline then { m5 with PresenceStatus := StatusOffline }
        else m5
      else m5
    { state := m6, panicked := false }

/-- A run of presence merges on one record, in order. A panic ends the run: the
later payloads are not applied. -/
def UpdatePresences (m : MemberState) : List Presence → Outcome
  | [] => { state := m, panicked := false }
  | p :: rest =>
    let r := UpdatePresence m p
    if r.panicked then r else UpdatePresences r.state rest

/-! ## Snapshot and formatting -/

/-- Go `(*MemberState).Copy`: `*cop = *m`, a field-for-field copy into a new record. -/
def Copy (m : MemberState) : MemberState := m

/-- Go `(*MemberState).StrDiscriminator`. -/
def StrDiscriminator (m : MemberState) : GoString :=
  let result := FormatInt10 m.Discriminator
  if m.Discriminator < 10 then goStr "000" ++ result
  else if m.Discriminator < 100 then goStr "00" ++ result
  else if m.Discriminator < 1000 then goStr "0" ++ result
  else result

/-! ## Reference functions used in the statements -/

/-- The two hexadecimal digits that `hex.Encode` writes for one byte. -/
def encByte (v : Byte) : List Byte :=
  [hextable.getD (v.val >>> 4) 0, hextable.getD (v.val &&& 15) 0]

/-- The text `hex.Encode` produces for a byte sequence: two digits per byte, in order. -/
def hexText (src : List Byte) : GoString := src.flatMap encByte

/-- The copy `&LightGame{...}` that `UpdatePresence` makes of an activity. -/
def lightGameOf (a : Game) : LightGame :=
  { Name := a.Name, Details := a.Details, URL := a.URL, State := a.State, Typ := a.Typ }

/-- The record of `UpdatePresence` when control reaches `if presence.User.Avatar != ""`:
the statements of `UpdatePresence` up to that line. -/
def presenceBeforeAvatar (m : MemberState) (presence : Presence) : MemberState :=
  let m0 : MemberState := { m with PresenceSet := true }
  let mainActivity := mainActivityLoop none 0 presence.Activities
  let m1 : MemberState :=
    match mainActivity with
    | none => { m0 with PresenceGame := none }
    | some a =>
      let game : LightGame :=
        { Name := a.Name, Details := a.Details, URL := a.URL, State := a.State, Typ := a.Typ }
      { m0 with PresenceGame := some game }
  let m2 : MemberState := if !m1.MemberSet then { m1 with Nick := presence.Nick } else m1
  let m3 : MemberState :=
    if presence.User.Username ≠ [] then { m2 with Username := presence.User.Username } else m2
  let m4 : MemberState :=
    if presence.User.Discriminator ≠ [] then
      { m3 with Discriminator := toInt32 (ParseInt presence.User.Discriminator 10 32).1 }
    else m3
  m4

/-- The status that the `switch presence.Status` of `UpdatePresence` leaves, from
the status `old` held before. -/
def statusAfter (old : PresenceStatus) (status : GoString) : PresenceStatus :=
  if status = dgoStatusOnline then StatusOnline
  else if status = dgoStatusIdle then StatusIdle
  else if status = dgoStatusDoNotDisturb then StatusDoNotDisturb
  else if status = dgoStatusInvisible then StatusInvisible
  else if status = dgoStatusOffline then StatusOffline
  else old

/-- Whether `ParseAvatar` panics on the text `str`, that is whether decoding it
writes past the 16th byte of the hash; the record plays no part in it. -/
def avatarOverflows (str : GoString) : Bool := (ParseAvatar MemberState.zero str).panicked

/-- The record of `UpdateMember` when control reaches `m.ParseAvatar(member.User.Avatar)`:
the statements of `UpdateMember` up to that line. -/
def memberBeforeAvatar (rfc3339 : GoString → Option GoTime) (m : MemberState)
    (member : Member) : MemberState :=
  let m1 : MemberState :=
    if member.JoinedAt ≠ [] then
      { m with JoinedAt := (TimestampParse rfc3339 member.JoinedAt).1 }
    else m
  let m2 : MemberState :=
    { m1 with Roles := member.Roles, Nick := member.Nick, Username := member.User.Username }
  m2

/-- A membership merge followed by a run of presence merges on the same record; a
panic ends the run. -/
def UpdateMemberThenPresences (rfc3339 : GoString → Option GoTime) (m : MemberState)
    (member : Member) (ps : List Presence) : Outcome :=
  let r := UpdateMember rfc3339 m member
  if r.panicked then r else UpdatePresences r.state ps

/-- The main activity as the specification words it: none for an empty list;
otherwise the last element of kind 1 (streaming) if there is one, else the first. -/
def mainActivitySpec (acts : List Game) : Option Game :=
  match acts with
  | [] => none
  | first :: _ => some (((acts.filter (fun a => a.Typ == 1)).getLast?).getD first)

/-- The value that `strconv.ParseInt(text, 10, 32)` returns next to an error: `0`
with `ErrSyntax`; with `ErrRange` the bound of the signed 32-bit range on the side
of the sign of `text`. -/
def valueOnError (text : GoString) : NumError → Int
  | .ErrSyntax => 0
  | .ErrRange => if text.head? = some 45 then -2147483648 else 2147483647

/-! ## Runs of merges, the record store, and the reference functions of formatting -/

/-- One merge applied to a record: a membership payload or a presence payload. -/
inductive Update where
  | member (payload : Member)
  | presence (payload : Presence)
  deriving DecidableEq, Repr

/-- The merge that an update stands for. -/
def applyUpdate (rfc3339 : GoString → Option GoTime) (m : MemberState) : Update → Outcome
  | .member payload => UpdateMember rfc3339 m payload
  | .presence payload => UpdatePresence m payload

/-- A run of merges on one record, in order. A panic ends the run. -/
def applyUpdates (rfc3339 : GoString → Option GoTime) (m : MemberState) :
    List Update → Outcome
  | [] => { state := m, panicked := false }
  | u :: rest =>
    let r := applyUpdate rfc3339 m u
    if r.panicked then r else applyUpdates rfc3339 r.state rest

/-- The records in memory: `store[a]?` is the record that a `*MemberState` of
address `a` points to. -/
abbrev Store := List MemberState

/-- Go `(*MemberState).Copy` on the store: `new(MemberState)` takes the next free
address, `*cop = *m` stores there the fields of the record at `m`, and the new
address is returned. `none` when `m` is no address of the store (a nil dereference). -/
def CopyAt (s : Store) (m : Nat) : Option (Store × Nat) :=
  match s[m]? with
  | none => none
  | some r => some (s ++ [Copy r], s.length)

/-- An assignment `f` to fields of the record at address `a`; the store is as it
was when `a` is no address of it. -/
def assignAt (s : Store) (a : Nat) (f : MemberState → MemberState) : Store :=
  match s[a]? with
  | none => s
  | some r => s.set a (f r)

/-- The lowercase hexadecimal digit of a value below 16. -/
def hexDigit (k : Nat) : Byte := if k < 10 then Fin.ofNat (48 + k) else Fin.ofNat (87 + k)

/-- Whether a byte is a decimal digit, `0` to `9`. -/
def isDigit (c : Byte) : Bool := decide (48 ≤ c.val) && decide (c.val ≤ 57)

/-- The number that a text of decimal digits denotes, most significant digit first. -/
def decimalValue (s : GoString) : Nat := s.foldl (fun acc c => acc * 10 + (c.val - 48)) 0

/-- The record `&MemberState{Guild: gs, ID: id, Bot: bot}`: every other field zero. -/
def newRecord (gs : Option Nat) (id : Int) (bot : Bool) : MemberState :=
  { MemberState.zero with Guild := gs, ID := id, Bot := bot }

/-! ## Export -/

/-- Go `(*MemberState).DGoUser`. `none` is a panic inside `StrAvatar`. -/
def DGoUser (m : MemberState) : Option User :=
  match StrAvatar m with
  | none => none
  | some avatar =>
    some { ID := m.ID, Username := m.Username, Bot := m.Bot, Avatar := avatar,
           Discriminator := StrDiscriminator m }

/-- Go `(*MemberState).DGoCopy`, over a rendering `format` of `time.Time` values
for `m.JoinedAt.Format(time.RFC3339)`. `none` is a panic inside `DGoUser`. -/
def DGoCopy (format : GoTime → GoString) (m : MemberState) : Option Member :=
  match DGoUser m with
  | none => none
  | some user =>
    some { User := user, Nick := m.Nick, Roles := m.Roles, JoinedAt := format m.JoinedAt }

/-- Whether a discriminator text, parsed the way the merges parse it, gives a value
from 0 to 9999. -/
def discriminatorInRange (text : GoString) : Bool :=
  decide (0 ≤ toInt32 (ParseInt text 10 32).1) && decide (toInt32 (ParseInt text 10 32).1 ≤ 9999)

/-- Whether the discriminator text that an update supplies is in range; a presence
payload with an empty discriminator text supplies none. -/
def updateInRange : Update → Bool
  | .member payload => discriminatorInRange payload.User.Discriminator
  | .presence payload =>
    decide (payload.User.Discriminator = []) || discriminatorInRange payload.User.Discriminator

/-! ## Concrete records and payloads used in the examples -/

/-- A reading of timestamp texts that knows one text, `2020-01-01T00:00:00Z`, with
the instant `time.Parse` gives it (63713433600 seconds after the zero `Time`). It is
used only at that text and at `yesterday`, which `time.Parse` rejects as well. -/
def rfc3339Sample : GoString → Option GoTime :=
  fun t => if t = goStr "2020-01-01T00:00:00Z" then some 63713433600000000000 else none

/-- The hash `0123456789abcdeffedcba9876543210`. -/
def sampleHash : Bytes 16 :=
  ⟨[1, 35, 69, 103, 137, 171, 205, 239, 254, 220, 186, 152, 118, 84, 50, 16], by decide⟩

/-- A record with an animated avatar, a nickname and a join time, after both merges. -/
def sampleRecord : MemberState :=
  { MemberState.zero with
    Guild := some 1, ID := 42, JoinedAt := 63713433600000000000, Nick := goStr "Bar",
    Roles := [1, 2, 3], PresenceStatus := StatusOnline, Username := goStr "alice",
    Avatar := sampleHash, Discriminator := 7, AnimatedAvatar := true,
    MemberSet := true, PresenceSet := true }

/-- A record on which no merge has run yet. -/
def freshRecord : MemberState := { MemberState.zero with Guild := some 1, ID := 42 }

/-- A membership payload: nickname `Bar`, one role, an animated avatar, a join time. -/
def sampleMember : Member :=
  { JoinedAt := goStr "2020-01-01T00:00:00Z", Nick := goStr "Bar",
    User := { ID := 42, Username := goStr "alice",
              Avatar := goStr "a_0123456789abcdeffedcba9876543210",
              Discriminator := goStr "0007", Bot := false },
    Roles := [5] }

/-- The sample membership payload without the join time. -/
def memberNoJoinedAt : Member := { sampleMember with JoinedAt := [] }

/-- The sample membership payload for a user who has no avatar: the avatar text is empty. -/
def memberNoAvatar : Member :=
  { sampleMember with User := { sampleMember.User with Avatar := [] } }

/-- The sample membership payload with a discriminator text of digits only that
exceeds the signed 32-bit range. -/
def memberBigDiscriminator : Member :=
  { sampleMember with User := { sampleMember.User with Discriminator := goStr "9999999999" } }

/-- The sample membership payload with a discriminator text that is no number. -/
def memberBadDiscriminator : Member :=
  { sampleMember with User := { sampleMember.User with Discriminator := goStr "12a" } }

/-- The sample membership payload with a join time text that is no timestamp. -/
def memberBadJoinedAt : Member := { sampleMember with JoinedAt := goStr "yesterday" }

/-- An avatar text of 34 hexadecimal digits, one byte more than the hash holds. -/
def longAvatar : GoString := goStr "00112233445566778899aabbccddeeff00"

/-- The sample membership payload with the 34-digit avatar text. -/
def memberLongAvatar : Member :=
  { sampleMember with User := { sampleMember.User with Avatar := longAvatar } }

/-- A presence payload that carries a nickname, a status and three activities (the
second one streaming) and leaves user name, discriminator and avatar empty. -/
def samplePresence : Presence :=
  { User := { ID := 42, Username := [], Avatar := [], Discriminator := [], Bot := false },
    Status := goStr "idle",
    Activities :=
      [ { Name := goStr "A", URL := [], Details := [], State := [], Typ := 0 },
        { Name := goStr "B", URL := [], Details := [], State := [], Typ := 1 },
        { Name := goStr "C", URL := [], Details := [], State := [], Typ := 0 } ],
    Nick := goStr "Baz" }

/-- The sample presence payload with a user name. -/
def presenceWithUsername : Presence :=
  { samplePresence with User := { samplePresence.User with Username := goStr "bob" } }

/-- The sample presence payload with a discriminator text that is no number. -/
def presenceBadDiscriminator : Presence :=
  { samplePresence with User := { samplePresence.User with Discriminator := goStr "12a" } }

/-- The sample presence payload with the 34-digit avatar text. -/
def presenceLongAvatar : Presence :=
  { samplePresence with User := { samplePresence.User with Avatar := longAvatar } }

/-- A record without avatar whose animated flag is set. -/
def zeroAvatarAnimated : MemberState :=
  { sampleRecord with Avatar := ZeroAvatar, AnimatedAvatar := true }

/-- A record without avatar whose animated flag is clear. -/
def zeroAvatarStill : MemberState :=
  { sampleRecord with Avatar := ZeroAvatar, AnimatedAvatar := false }

/-- A store that holds the sample record at address 0 and a new record at address 1. -/
def sampleStore : Store := [sampleRecord, freshRecord]

/-- The sample record with another discriminator. -/
def withDiscriminator (d : Int) : MemberState := { sampleRecord with Discriminator := d }

/-- A rendering of join times that gives the text `2020-01-01T00:00:00Z` for the
instant of the sample record and the empty text otherwise; the round trip of the
export does not read the join time. -/
def formatSample : GoTime → GoString :=
  fun t => if t = 63713433600000000000 then goStr "2020-01-01T00:00:00Z" else []

/-- The sample membership payload with a discriminator text of five digits. -/
def memberFiveDigits : Member :=
  { sampleMember with User := { sampleMember.User with Discriminator := goStr "12345" } }

/-- The sample presence payload with a negative discriminator text. -/
def presenceNegative : Presence :=
  { samplePresence with User := { samplePresence.User with Discriminator := goStr "-5" } }

/-- The sample presence payload with the discriminator text `0042`. -/
def presenceDiscriminator42 : Presence :=
  { samplePresence with User := { samplePresence.User with Discriminator := goStr "0042" } }

/-! ## Lemmas on the codec -/

set_option maxRecDepth 1000000 in
theorem fromHexChar_hi : ∀ v : Byte,
    fromHexChar (hextable.getD (v.val >>> 4) 0) = some (Fin.ofNat (v.val >>> 4)) := by
  decide

set_option maxRecDepth 1000000 in
theorem fromHexChar_lo : ∀ v : Byte,
    fromHexChar (hextable.getD (v.val &&& 15) 0) = some (Fin.ofNat (v.val &&& 15)) := by
  decide

set_option maxRecDepth 1000000 in
theorem nibbles_join : ∀ v : Byte,
    (Fin.ofNat (((Fin.ofNat (v.val >>> 4) : Byte).val <<< 4) |||
      (Fin.ofNat (v.val &&& 15) : Byte).val) : Byte) = v := by
  decide

theorem take_succ_set {α : Type} (l : List α) (i : Nat) (v : α) (h : i < l.length) :
    (l.set i v).take (i + 1) = l.take i ++ [v] := by
  induction l generalizing i with
  | nil => simp at h
  | cons x xs ih =>
    cases i with
    | zero => simp
    | succ j =>
      have hj : j < xs.length := by simpa using h
      simp [ih j hj]

theorem drop_succ_set {α : Type} (l : List α) (i k : Nat) (v : α) :
    (l.set i v).drop (i + 1 + k) = l.drop (i + 1 + k) := by
  rw [List.drop_set]
  have : ¬ i + 1 + k ≤ i := by omega
  simp
  omega

theorem flatMap_encByte_cons (v : Byte) (rest : List Byte) :
    (v :: rest).flatMap encByte =
      hextable.getD (v.val >>> 4) 0 :: hextable.getD (v.val &&& 15) 0 :: rest.flatMap encByte :=
  rfl

theorem hexDecodeLoop_encoded {n : Nat} (src : List Byte) :
    ∀ (dst : Bytes n) (i : Nat), i + src.length ≤ n →
      (hexDecodeLoop dst i (src.flatMap encByte)).2 = DecodeExit.returned (i + src.length) none ∧
      (hexDecodeLoop dst i (src.flatMap encByte)).1.val =
        dst.val.take i ++ src ++ dst.val.drop (i + src.length) := by
  induction src with
  | nil =>
    intro dst i _
    simp [hexDecodeLoop]
  | cons v rest ih =>
    intro dst i hi
    have hlt : i < n := by simp at hi; omega
    have hrest : i + 1 + rest.length ≤ n := by simp at hi; omega
    have hstep : hexDecodeLoop dst i ((v :: rest).flatMap encByte) =
        hexDecodeLoop (dst.set ⟨i, hlt⟩ v) (i + 1) (rest.flatMap encByte) := by
      rw [flatMap_encByte_cons]
      simp only [hexDecodeLoop, fromHexChar_hi, fromHexChar_lo, nibbles_join, dif_pos hlt]
    rw [hstep]
    obtain ⟨h1, h2⟩ := ih (dst.set ⟨i, hlt⟩ v) (i + 1) hrest
    refine ⟨?_, ?_⟩
    · rw [h1]; simp; omega
    · rw [h2]
      have hl : i < dst.val.length := by rw [dst.property]; exact hlt
      simp only [Bytes.set, take_succ_set dst.val i v hl, drop_succ_set, List.length_cons]
      have : i + (rest.length + 1) = i + 1 + rest.length := by omega
      rw [this]
      simp

theorem hexEncodeLoop_spec {n : Nat} (src : List Byte) :
    ∀ (dst : Bytes n) (i : Nat), (i + src.length) * 2 ≤ n →
      ∃ out : Bytes n, hexEncodeLoop dst i src = some out ∧
        out.val = dst.val.take (i * 2) ++ src.flatMap encByte ++
          dst.val.drop ((i + src.length) * 2) := by
  induction src with
  | nil =>
    intro dst i _
    exact ⟨dst, rfl, by simp⟩
  | cons v rest ih =>
    intro dst i hi
    have h0 : i * 2 < n := by simp at hi; omega
    have h1 : i * 2 + 1 < n := by simp at hi; omega
    have hrest : (i + 1 + rest.length) * 2 ≤ n := by simp at hi; omega
    obtain ⟨out, hout, hval⟩ := ih
      ((dst.set ⟨i * 2, h0⟩ (hextable.getD (v.val >>> 4) 0)).set ⟨i * 2 + 1, h1⟩
        (hextable.getD (v.val &&& 15) 0)) (i + 1) hrest
    refine ⟨out, ?_, ?_⟩
    · simp only [hexEncodeLoop, dif_pos h0, dif_pos h1]
      exact hout
    · rw [hval, flatMap_encByte_cons]
      have hl0 : i * 2 < dst.val.length := by rw [dst.property]; exact h0
      have hl1 : i * 2 + 1 < (dst.val.set (i * 2) (hextable.getD (v.val >>> 4) 0)).length := by
        simp [dst.property]; exact h1
      have e1 : (i + 1) * 2 = i * 2 + 1 + 1 := by omega
      have e2 : (i + 1 + rest.length) * 2 = i * 2 + 1 + 1 + rest.length * 2 := by omega
      have e3 : (i + (v :: rest).length) * 2 = i * 2 + 1 + 1 + rest.length * 2 := by
        simp; omega
      have e4 : i * 2 + 1 + 1 + rest.length * 2 = i * 2 + 1 + (1 + rest.length * 2) := by omega
      simp only [Bytes.set, e1, e2, e3]
      rw [take_succ_set _ _ _ hl1, take_succ_set _ _ _ hl0, drop_succ_set, e4, drop_succ_set]
      simp

theorem StrAvatar_eq (m : MemberState) :
    StrAvatar m = some (if m.Avatar = ZeroAvatar then []
      else if m.AnimatedAvatar then goStr "a_" ++ hexText m.Avatar.val
      else hexText m.Avatar.val) := by
  unfold StrAvatar
  by_cases hz : m.Avatar = ZeroAvatar
  · simp [hz]
  · obtain ⟨out, hout, hval⟩ := hexEncodeLoop_spec m.Avatar.val (Bytes.zero 32) 0
      (by rw [m.Avatar.property])
    have hlen : (Bytes.zero 32).val.length = 32 := (Bytes.zero 32).property
    have hv : out.val = hexText m.Avatar.val := by
      rw [hval, m.Avatar.property]
      simp [hexText, List.drop_of_length_le, hlen]
    simp only [hz, if_false, hexEncode, hout, hv]

set_option maxRecDepth 1000000 in
theorem hextable_lo_ne_underscore : ∀ v : Byte, hextable.getD (v.val &&& 15) 0 ≠ 95 := by
  decide

theorem hexText_not_animated (src : List Byte) : stringsHasPrefix (hexText src) (goStr "a_") = false := by
  cases src with
  | nil => decide
  | cons v rest =>
    have h := hextable_lo_ne_underscore v
    have h2 : goStr "a_" = [97, 95] := by decide
    simp only [hexText, flatMap_encByte_cons, stringsHasPrefix, h2]
    simp only [List.getD_eq_getElem?_getD] at h
    simp [h]

theorem ParseAvatar_hexText (dst : MemberState) (h : Bytes 16) (animated : Bool) :
    ParseAvatar dst (if animated then goStr "a_" ++ hexText h.val else hexText h.val) =
      { state := { dst with AnimatedAvatar := animated, Avatar := h }, panicked := false } := by
  obtain ⟨h1, h2⟩ := hexDecodeLoop_encoded h.val dst.Avatar 0 (by rw [h.property])
  have hv : (hexDecodeLoop dst.Avatar 0 (hexText h.val)).1 = h := by
    apply Subtype.ext
    rw [hexText, h2, h.property]
    simp [List.drop_of_length_le, dst.Avatar.property]
  have he : (hexDecodeLoop dst.Avatar 0 (hexText h.val)).2 ≠ DecodeExit.indexOutOfRange := by
    rw [hexText, h1]; simp
  cases animated with
  | true =>
    have hp : stringsHasPrefix (goStr "a_" ++ hexText h.val) (goStr "a_") = true := by
      have h2 : goStr "a_" = [97, 95] := by decide
      simp [stringsHasPrefix, h2]
    have hd : (goStr "a_" ++ hexText h.val).drop 2 = hexText h.val := by
      have h2 : goStr "a_" = [97, 95] := by decide
      simp [h2]
    simp only [ParseAvatar, if_true, hp, hd, hexDecode, hv]
    simp [he]
  | false =>
    simp only [ParseAvatar, hexText_not_animated, hexDecode, Bool.false_eq_true, if_false, hv]
    simp [he]

/-! ## Lemmas on the merges -/

theorem ParseAvatar_state (m : MemberState) (str : GoString) :
    (ParseAvatar m str).state =
      { m with AnimatedAvatar := (ParseAvatar m str).state.AnimatedAvatar,
               Avatar := (ParseAvatar m str).state.Avatar } := rfl

theorem presenceBeforeAvatar_eq (m : MemberState) (presence : Presence) :
    presenceBeforeAvatar m presence =
      { m with
        PresenceSet := true,
        PresenceGame := (mainActivityLoop none 0 presence.Activities).map lightGameOf,
        Nick := if m.MemberSet then m.Nick else presence.Nick,
        Username := if presence.User.Username = [] then m.Username else presence.User.Username,
        Discriminator :=
          if presence.User.Discriminator = [] then m.Discriminator
          else toInt32 (ParseInt presence.User.Discriminator 10 32).1 } := by
  unfold presenceBeforeAvatar
  cases hact : mainActivityLoop none 0 presence.Activities <;>
  cases hm : m.MemberSet <;>
  by_cases hu : presence.User.Username = [] <;>
  by_cases hd : presence.User.Discriminator = [] <;>
  simp only [hu, hd, ne_eq, not_true_eq_false, not_false_eq_true, if_true, if_false,
    Bool.not_true, Bool.not_false, Bool.false_eq_true, Option.map, lightGameOf]

theorem statusAfter_nil (old : PresenceStatus) : statusAfter old [] = old := rfl

theorem UpdatePresence_unfold (m : MemberState) (p : Presence) :
    UpdatePresence m p =
      (let m4 := presenceBeforeAvatar m p
       let r : Outcome :=
         if p.User.Avatar ≠ [] then ParseAvatar m4 p.User.Avatar
         else { state := m4, panicked := false }
       if r.panicked then r
       else
         let m5 := r.state
         let m6 : MemberState :=
           if p.Status ≠ [] then
             if p.Status = dgoStatusOnline then { m5 with PresenceStatus := StatusOnline }
             else if p.Status = dgoStatusIdle then { m5 with PresenceStatus := StatusIdle }
             else if p.Status = dgoStatusDoNotDisturb then
               { m5 with PresenceStatus := StatusDoNotDisturb }
             else if p.Status = dgoStatusInvisible then
               { m5 with PresenceStatus := StatusInvisible }
             else if p.Status = dgoStatusOffline then { m5 with PresenceStatus := StatusOffline }
             else m5
           else m5
         { state := m6, panicked := false }) := rfl

theorem UpdatePresence_eq (m : MemberState) (p : Presence) :
    UpdatePresence m p =
      if p.User.Avatar = [] then
        { state := { presenceBeforeAvatar m p with
            PresenceStatus := statusAfter (presenceBeforeAvatar m p).PresenceStatus p.Status },
          panicked := false }
      else if (ParseAvatar (presenceBeforeAvatar m p) p.User.Avatar).panicked then
        ParseAvatar (presenceBeforeAvatar m p) p.User.Avatar
      else
        { state := { (ParseAvatar (presenceBeforeAvatar m p) p.User.Avatar).state with
            PresenceStatus := statusAfter (presenceBeforeAvatar m p).PresenceStatus p.Status },
          panicked := false } := by
  rw [UpdatePresence_unfold]
  generalize presenceBeforeAvatar m p = m4
  by_cases ha : p.User.Avatar = [] <;>
  by_cases hs : p.Status = [] <;>
  simp only [ha, hs, statusAfter_nil, ne_eq, not_true_eq_false, not_false_eq_true, if_true,
    if_false, Bool.false_eq_true] <;>
  first
  | rfl
  | (unfold statusAfter; split_ifs <;> rfl)

theorem UpdatePresence_Nick (m : MemberState) (p : Presence) :
    (UpdatePresence m p).state.Nick = if m.MemberSet then m.Nick else p.Nick := by
  rw [UpdatePresence_eq]
  split_ifs <;> simp only [presenceBeforeAvatar_eq, ParseAvatar] <;> simp_all

theorem UpdatePresence_MemberSet (m : MemberState) (p : Presence) :
    (UpdatePresence m p).state.MemberSet = m.MemberSet := by
  rw [UpdatePresence_eq]
  split_ifs <;> simp only [presenceBeforeAvatar_eq, ParseAvatar]

theorem UpdatePresence_PresenceGame (m : MemberState) (p : Presence) :
    (UpdatePresence m p).state.PresenceGame =
      (mainActivityLoop none 0 p.Activities).map lightGameOf := by
  rw [UpdatePresence_eq]
  split_ifs <;> simp only [presenceBeforeAvatar_eq, ParseAvatar]

theorem UpdatePresence_Username (m : MemberState) (p : Presence) :
    (UpdatePresence m p).state.Username =
      if p.User.Username = [] then m.Username else p.User.Username := by
  rw [UpdatePresence_eq]
  split_ifs <;> simp only [presenceBeforeAvatar_eq, ParseAvatar] <;> simp_all

theorem UpdatePresence_Discriminator (m : MemberState) (p : Presence) :
    (UpdatePresence m p).state.Discriminator =
      if p.User.Discriminator = [] then m.Discriminator
      else toInt32 (ParseInt p.User.Discriminator 10 32).1 := by
  rw [UpdatePresence_eq]
  split_ifs <;> simp only [presenceBeforeAvatar_eq, ParseAvatar] <;> simp_all

theorem UpdatePresence_avatar_nil (m : MemberState) (p : Presence) (h : p.User.Avatar = []) :
    (UpdatePresence m p).state.Avatar = m.Avatar ∧
    (UpdatePresence m p).state.AnimatedAvatar = m.AnimatedAvatar ∧
    (UpdatePresence m p).panicked = false := by
  rw [UpdatePresence_eq, if_pos h]
  simp only [presenceBeforeAvatar_eq, and_self]

theorem hexDecodeLoop_exit {n : Nat} :
    ∀ (src : List Byte) (d1 d2 : Bytes n) (i : Nat),
      (hexDecodeLoop d1 i src).2 = (hexDecodeLoop d2 i src).2
  | [], _, _, _ => rfl
  | [p], _, _, _ => by
    simp only [hexDecodeLoop]
    split <;> rfl
  | p :: q :: rest, d1, d2, i => by
    simp only [hexDecodeLoop]
    split
    · rfl
    · split
      · rfl
      · split_ifs
        · exact hexDecodeLoop_exit rest _ _ _
        · rfl

theorem ParseAvatar_panicked (m : MemberState) (str : GoString) :
    (ParseAvatar m str).panicked = avatarOverflows str := by
  simp only [avatarOverflows, ParseAvatar, hexDecode]
  rw [hexDecodeLoop_exit _ m.Avatar MemberState.zero.Avatar]

theorem ParseAvatar_animated (m : MemberState) (str : GoString) :
    (ParseAvatar m str).state.AnimatedAvatar = stringsHasPrefix str (goStr "a_") := rfl

theorem memberBeforeAvatar_eq (rfc3339 : GoString → Option GoTime) (m : MemberState)
    (member : Member) :
    memberBeforeAvatar rfc3339 m member =
      { m with
        JoinedAt :=
          if member.JoinedAt = [] then m.JoinedAt
          else (TimestampParse rfc3339 member.JoinedAt).1,
        Roles := member.Roles, Nick := member.Nick, Username := member.User.Username } := by
  unfold memberBeforeAvatar
  by_cases hj : member.JoinedAt = [] <;>
  simp only [hj, ne_eq, not_true_eq_false, not_false_eq_true, if_true, if_false]

theorem UpdateMember_eq (rfc3339 : GoString → Option GoTime) (m : MemberState)
    (member : Member) :
    UpdateMember rfc3339 m member =
      if avatarOverflows member.User.Avatar then
        ParseAvatar (memberBeforeAvatar rfc3339 m member) member.User.Avatar
      else
        { state :=
            { (ParseAvatar (memberBeforeAvatar rfc3339 m member) member.User.Avatar).state with
              Discriminator := toInt32 (ParseInt member.User.Discriminator 10 32).1,
              MemberSet := true },
          panicked := false } := by
  rw [← ParseAvatar_panicked (memberBeforeAvatar rfc3339 m member)]
  rfl

theorem MSFromDGoMember_of_fits (rfc3339 : GoString → Option GoTime) (gs : Option Nat)
    (member : Member) (h : avatarOverflows member.User.Avatar = false) :
    ∃ r, MSFromDGoMember rfc3339 gs member = some r ∧
      r.Discriminator = toInt32 (ParseInt member.User.Discriminator 10 32).1 ∧
      r.MemberSet = true := by
  unfold MSFromDGoMember
  simp only [ParseAvatar_panicked, h]
  exact ⟨_, rfl, rfl, rfl⟩

theorem UpdateMember_panicked (rfc3339 : GoString → Option GoTime) (m : MemberState)
    (member : Member) :
    (UpdateMember rfc3339 m member).panicked = avatarOverflows member.User.Avatar := by
  rw [UpdateMember_eq]
  split_ifs with h
  · rw [ParseAvatar_panicked, h]
  · simp at h; simp [h]

theorem UpdateMember_front (rfc3339 : GoString → Option GoTime) (m : MemberState)
    (member : Member) :
    (UpdateMember rfc3339 m member).state.Roles = member.Roles ∧
    (UpdateMember rfc3339 m member).state.Nick = member.Nick ∧
    (UpdateMember rfc3339 m member).state.Username = member.User.Username ∧
    (UpdateMember rfc3339 m member).state.JoinedAt =
      (if member.JoinedAt = [] then m.JoinedAt
       else (TimestampParse rfc3339 member.JoinedAt).1) := by
  rw [UpdateMember_eq]
  split_ifs <;> simp only [memberBeforeAvatar_eq, ParseAvatar] <;> simp_all

theorem UpdateMember_of_fits (rfc3339 : GoString → Option GoTime) (m : MemberState)
    (member : Member) (h : avatarOverflows member.User.Avatar = false) :
    (UpdateMember rfc3339 m member).state.Discriminator =
      toInt32 (ParseInt member.User.Discriminator 10 32).1 ∧
    (UpdateMember rfc3339 m member).state.MemberSet = true := by
  rw [UpdateMember_eq, h]
  exact ⟨rfl, rfl⟩

theorem UpdatePresences_Nick (ps : List Presence) :
    ∀ m : MemberState, m.MemberSet = true →
      (UpdatePresences m ps).state.Nick = m.Nick := by
  induction ps with
  | nil => intro m _; rfl
  | cons p rest ih =>
    intro m hm
    have hn := UpdatePresence_Nick m p
    have hs := UpdatePresence_MemberSet m p
    rw [hm] at hs
    simp only [hm, if_true] at hn
    unfold UpdatePresences
    simp only []
    split_ifs
    · exact hn
    · rw [ih _ hs, hn]

theorem mainActivityLoop_succ (l : List Game) :
    ∀ (cur : Option Game) (i : Nat),
      mainActivityLoop cur (i + 1) l =
        match (l.filter (fun a => a.Typ == 1)).getLast? with
        | some g => some g
        | none => cur := by
  induction l with
  | nil => intro cur i; rfl
  | cons v rest ih =>
    intro cur i
    unfold mainActivityLoop
    rw [ih, List.filter_cons]
    by_cases hv : v.Typ = 1
    · have hb : (v.Typ == 1) = true := by simpa using hv
      simp only [hb, if_true, Bool.or_true, List.getLast?_cons]
      generalize (rest.filter (fun a => a.Typ == 1)).getLast? = g
      cases g <;> rfl
    · have hb : (v.Typ == 1) = false := by simpa using hv
      have hi : (i + 1 == 0) = false := by simp
      simp only [hb, hi, Bool.or_false, Bool.false_eq_true, if_false]

theorem mainActivityLoop_eq_spec (acts : List Game) :
    mainActivityLoop none 0 acts = mainActivitySpec acts := by
  cases acts with
  | nil => rfl
  | cons v rest =>
    unfold mainActivityLoop mainActivitySpec
    have h0 : ((0 : Nat) == 0 || v.Typ == 1) = true := by simp
    rw [h0, if_pos rfl, mainActivityLoop_succ, List.filter_cons]
    by_cases hv : v.Typ = 1
    · have hb : (v.Typ == 1) = true := by simpa using hv
      simp only [hb, if_true, List.getLast?_cons]
      generalize (rest.filter (fun a => a.Typ == 1)).getLast? = g
      cases g <;> rfl
    · have hb : (v.Typ == 1) = false := by simpa using hv
      simp only [hb, Bool.false_eq_true, if_false]
      generalize (rest.filter (fun a => a.Typ == 1)).getLast? = g
      cases g <;> rfl

theorem ParseInt_syntax_value (s : GoString) (base bitSize : Nat)
    (h : (ParseInt s base bitSize).2 = some NumError.ErrSyntax) :
    (ParseInt s base bitSize).1 = 0 := by
  unfold ParseInt at h ⊢
  cases s with
  | nil => rfl
  | cons c t =>
    simp only [] at h ⊢
    split_ifs at h ⊢ <;> simp_all

theorem ParseInt_range_value (s : GoString)
    (h : (ParseInt s 10 32).2 = some NumError.ErrRange) :
    (ParseInt s 10 32).1 = if s.head? = some 45 then -2147483648 else 2147483647 := by
  unfold ParseInt at h ⊢
  cases s with
  | nil => simp at h
  | cons c t =>
    simp only [] at h ⊢
    by_cases hc : c = 45
    · subst hc
      split_ifs at h ⊢ <;> simp_all [toInt64]
    · have hb : (c == 45) = false := by simpa using hc
      simp only [hb] at h ⊢
      split_ifs at h ⊢ <;> simp_all [toInt64]

theorem ParseInt_error_value (text : GoString) (e : NumError)
    (h : (ParseInt text 10 32).2 = some e) :
    toInt32 (ParseInt text 10 32).1 = valueOnError text e := by
  cases e with
  | ErrSyntax =>
    rw [ParseInt_syntax_value text 10 32 h]
    rfl
  | ErrRange =>
    rw [ParseInt_range_value text h]
    unfold valueOnError
    split_ifs <;> rfl

/-! ## Lemmas on the presence status and on the untouched fields -/

theorem avatarOverflows_nil : avatarOverflows [] = false := by decide

theorem UpdatePresence_panicked (m : MemberState) (p : Presence) :
    (UpdatePresence m p).panicked = avatarOverflows p.User.Avatar := by
  rw [UpdatePresence_eq]
  split_ifs with h1 h2
  · rw [h1, avatarOverflows_nil]
  · rw [ParseAvatar_panicked]
  · rw [ParseAvatar_panicked] at h2
    simp at h2
    simp [h2]

theorem UpdatePresence_PresenceStatus (m : MemberState) (p : Presence) :
    (UpdatePresence m p).state.PresenceStatus =
      if avatarOverflows p.User.Avatar then m.PresenceStatus
      else statusAfter m.PresenceStatus p.Status := by
  rw [UpdatePresence_eq]
  by_cases ha : p.User.Avatar = []
  · rw [if_pos ha, ha, avatarOverflows_nil]
    simp only [presenceBeforeAvatar_eq, Bool.false_eq_true, if_false]
  · rw [if_neg ha, ParseAvatar_panicked]
    cases ho : avatarOverflows p.User.Avatar
    · simp only [presenceBeforeAvatar_eq, Bool.false_eq_true, if_false]
    · simp only [presenceBeforeAvatar_eq, ParseAvatar, if_true]

theorem UpdatePresence_frame (m : MemberState) (p : Presence) :
    (UpdatePresence m p).state.Guild = m.Guild ∧
    (UpdatePresence m p).state.ID = m.ID ∧
    (UpdatePresence m p).state.Bot = m.Bot ∧
    (UpdatePresence m p).state.Roles = m.Roles ∧
    (UpdatePresence m p).state.JoinedAt = m.JoinedAt ∧
    (UpdatePresence m p).state.MemberSet = m.MemberSet ∧
    (UpdatePresence m p).state.PresenceSet = true := by
  rw [UpdatePresence_eq]
  split_ifs <;> simp only [presenceBeforeAvatar_eq, ParseAvatar, and_self]

theorem UpdateMember_frame (rfc3339 : GoString → Option GoTime) (m : MemberState)
    (member : Member) :
    (UpdateMember rfc3339 m member).state.Guild = m.Guild ∧
    (UpdateMember rfc3339 m member).state.ID = m.ID ∧
    (UpdateMember rfc3339 m member).state.Bot = m.Bot ∧
    (UpdateMember rfc3339 m member).state.PresenceStatus = m.PresenceStatus ∧
    (UpdateMember rfc3339 m member).state.PresenceGame = m.PresenceGame ∧
    (UpdateMember rfc3339 m member).state.PresenceSet = m.PresenceSet := by
  rw [UpdateMember_eq]
  split_ifs <;> simp only [memberBeforeAvatar_eq, ParseAvatar, and_self]

theorem statusAfter_cases (old : PresenceStatus) (status : GoString) :
    (status = goStr "online" → statusAfter old status = StatusOnline) ∧
    (status = goStr "idle" → statusAfter old status = StatusIdle) ∧
    (status = goStr "dnd" → statusAfter old status = StatusDoNotDisturb) ∧
    (status = goStr "invisible" → statusAfter old status = StatusInvisible) ∧
    (status = goStr "offline" → statusAfter old status = StatusOffline) ∧
    (status ≠ goStr "online" → status ≠ goStr "idle" → status ≠ goStr "dnd" →
      status ≠ goStr "invisible" → status ≠ goStr "offline" →
      statusAfter old status = old) := by
  refine ⟨?_, ?_, ?_, ?_, ?_, ?_⟩
  · intro h; subst h; rfl
  · intro h; subst h; rfl
  · intro h; subst h; rfl
  · intro h; subst h; rfl
  · intro h; subst h; rfl
  · intro h1 h2 h3 h4 h5
    unfold statusAfter dgoStatusOnline dgoStatusIdle dgoStatusDoNotDisturb dgoStatusInvisible
      dgoStatusOffline
    rw [if_neg h1, if_neg h2, if_neg h3, if_neg h4, if_neg h5]

theorem statusAfter_set (old : PresenceStatus) (status : GoString)
    (h : old ≠ StatusNotSet) : statusAfter old status ≠ StatusNotSet := by
  unfold statusAfter
  split_ifs <;> first | exact h | decide

theorem hexText_length (l : List Byte) : (hexText l).length = 2 * l.length := by
  induction l with
  | nil => rfl
  | cons v rest ih =>
    rw [hexText, flatMap_encByte_cons]
    rw [hexText] at ih
    simp only [List.length_cons, ih]
    omega

set_option maxRecDepth 1000000 in
theorem hextable_hi : ∀ v : Byte, hextable.getD (v.val >>> 4) 0 = hexDigit (v.val / 16) := by
  decide

set_option maxRecDepth 1000000 in
theorem hextable_lo : ∀ v : Byte, hextable.getD (v.val &&& 15) 0 = hexDigit (v.val % 16) := by
  decide

theorem hexText_getElem (l : List Byte) :
    ∀ (i : Nat) (v : Byte), l[i]? = some v →
      (hexText l)[2 * i]? = some (hexDigit (v.val / 16)) ∧
      (hexText l)[2 * i + 1]? = some (hexDigit (v.val % 16)) := by
  induction l with
  | nil => intro i v h; simp at h
  | cons x rest ih =>
    intro i v h
    rw [hexText, flatMap_encByte_cons, hextable_hi, hextable_lo]
    cases i with
    | zero =>
      simp at h
      subst h
      exact ⟨by simp, by simp⟩
    | succ j =>
      have hj : rest[j]? = some v := by simpa using h
      obtain ⟨h1, h2⟩ := ih j v hj
      rw [hexText] at h1 h2
      have e1 : 2 * (j + 1) = 2 * j + 1 + 1 := by omega
      rw [e1]
      simp only [List.getElem?_cons_succ]
      exact ⟨h1, h2⟩

set_option maxRecDepth 1000000 in
theorem hexDigit_mem : ∀ k : Fin 16, hexDigit k.val ∈ goStr "0123456789abcdef" := by
  decide

theorem hexText_mem (l : List Byte) : ∀ c ∈ hexText l, c ∈ goStr "0123456789abcdef" := by
  induction l with
  | nil => intro c h; simp [hexText] at h
  | cons v rest ih =>
    intro c h
    rw [hexText, flatMap_encByte_cons, hextable_hi, hextable_lo] at h
    simp only [List.mem_cons] at h
    rcases h with h | h | h
    · rw [h]
      exact hexDigit_mem ⟨v.val / 16, by omega⟩
    · rw [h]
      exact hexDigit_mem ⟨v.val % 16, by omega⟩
    · exact ih c h

theorem applyUpdate_ID (rfc3339 : GoString → Option GoTime) (m : MemberState) (u : Update) :
    (applyUpdate rfc3339 m u).state.ID = m.ID := by
  cases u with
  | member payload => exact (UpdateMember_frame rfc3339 m payload).2.1
  | presence payload => exact (UpdatePresence_frame m payload).2.1

theorem applyUpdates_ID (rfc3339 : GoString → Option GoTime) (us : List Update) :
    ∀ m : MemberState, (applyUpdates rfc3339 m us).state.ID = m.ID := by
  induction us with
  | nil => intro m; rfl
  | cons u rest ih =>
    intro m
    unfold applyUpdates
    simp only []
    split_ifs
    · exact applyUpdate_ID rfc3339 m u
    · rw [ih, applyUpdate_ID]

theorem MSFromDGoMember_eq_UpdateMember (rfc3339 : GoString → Option GoTime)
    (gs : Option Nat) (member : Member) (hnil : rfc3339 [] = none) :
    MSFromDGoMember rfc3339 gs member =
      if avatarOverflows member.User.Avatar then none
      else some (UpdateMember rfc3339 (newRecord gs member.User.ID member.User.Bot)
        member).state := by
  unfold MSFromDGoMember
  rw [UpdateMember_eq]
  simp only [ParseAvatar_panicked]
  cases ho : avatarOverflows member.User.Avatar
  · simp only [Bool.false_eq_true, if_false, memberBeforeAvatar_eq, ParseAvatar, newRecord,
      MemberState.zero]
    by_cases hj : member.JoinedAt = []
    · simp [hj, TimestampParse, hnil]
    · simp [hj]
  · simp only [if_true]

/-! ## Lemmas on repeated merges -/

theorem hexDecodeLoop_below {n : Nat} :
    ∀ (src : List Byte) (d : Bytes n) (i j : Nat), j < i →
      (hexDecodeLoop d i src).1.val[j]? = d.val[j]?
  | [], _, _, _, _ => rfl
  | [p], _, _, _, _ => by
    simp only [hexDecodeLoop]
    split <;> rfl
  | p :: q :: rest, d, i, j, hj => by
    simp only [hexDecodeLoop]
    split
    · rfl
    · split
      · rfl
      · split_ifs with h
        · rw [hexDecodeLoop_below rest _ (i + 1) j (by omega)]
          simp only [Bytes.set]
          rw [List.getElem?_set_ne (by omega)]
        · rfl

theorem Bytes_set_self {n : Nat} (d : Bytes n) (i : Fin n) (v : Byte)
    (h : d.val[i.val]? = some v) : d.set i v = d := by
  apply Subtype.ext
  simp only [Bytes.set]
  apply List.ext_getElem?
  intro k
  by_cases hk : i.val = k
  · subst hk
    rw [List.getElem?_set_self (by rw [d.property]; exact i.isLt), h]
  · rw [List.getElem?_set_ne hk]

theorem hexDecodeLoop_idem {n : Nat} :
    ∀ (src : List Byte) (d : Bytes n) (i : Nat),
      hexDecodeLoop (hexDecodeLoop d i src).1 i src = hexDecodeLoop d i src
  | [], _, _ => rfl
  | [p], d, i => by
    have h1 : (hexDecodeLoop d i [p]).1 = d := by
      simp only [hexDecodeLoop]
      split <;> rfl
    rw [h1]
  | p :: q :: rest, d, i => by
    cases hp : fromHexChar p with
    | none =>
      have h1 : (hexDecodeLoop d i (p :: q :: rest)).1 = d := by
        simp only [hexDecodeLoop, hp]
      rw [h1]
    | some a =>
      cases hq : fromHexChar q with
      | none =>
        have h1 : (hexDecodeLoop d i (p :: q :: rest)).1 = d := by
          simp only [hexDecodeLoop, hp, hq]
        rw [h1]
      | some b =>
        by_cases h : i < n
        · have hstep : ∀ e : Bytes n, hexDecodeLoop e i (p :: q :: rest) =
              hexDecodeLoop (e.set ⟨i, h⟩ (Fin.ofNat ((a.val <<< 4) ||| b.val))) (i + 1) rest := by
            intro e
            simp only [hexDecodeLoop, hp, hq, dif_pos h]
          rw [hstep d, hstep]
          have hkeep := hexDecodeLoop_below rest
            (d.set ⟨i, h⟩ (Fin.ofNat ((a.val <<< 4) ||| b.val))) (i + 1) i (by omega)
          have hval : (d.set ⟨i, h⟩ (Fin.ofNat ((a.val <<< 4) ||| b.val))).val[i]? =
              some (Fin.ofNat ((a.val <<< 4) ||| b.val)) := by
            simp only [Bytes.set]
            rw [List.getElem?_set_self (by rw [d.property]; exact h)]
          rw [hval] at hkeep
          rw [Bytes_set_self _ ⟨i, h⟩ _ hkeep]
          exact hexDecodeLoop_idem rest _ (i + 1)
        · have h1 : (hexDecodeLoop d i (p :: q :: rest)).1 = d := by
            simp only [hexDecodeLoop, hp, hq, dif_neg h]
          rw [h1]

theorem ParseAvatar_idem (m : MemberState) (str : GoString) :
    ParseAvatar (ParseAvatar m str).state str = ParseAvatar m str := by
  simp only [ParseAvatar, hexDecode, hexDecodeLoop_idem]

theorem statusAfter_idem (old : PresenceStatus) (status : GoString) :
    statusAfter (statusAfter old status) status = statusAfter old status := by
  unfold statusAfter
  split_ifs <;> rfl

theorem UpdateMember_idem (rfc3339 : GoString → Option GoTime) (m : MemberState)
    (member : Member) :
    UpdateMember rfc3339 (UpdateMember rfc3339 m member).state member =
      UpdateMember rfc3339 m member := by
  rw [UpdateMember_eq rfc3339 m member, UpdateMember_eq]
  cases ho : avatarOverflows member.User.Avatar <;>
  by_cases hj : member.JoinedAt = [] <;>
  simp only [Bool.false_eq_true, if_false, if_true, memberBeforeAvatar_eq, ParseAvatar, hexDecode,
    hexDecodeLoop_idem, hj]

theorem UpdatePresence_idem (m : MemberState) (p : Presence) :
    UpdatePresence (UpdatePresence m p).state p = UpdatePresence m p := by
  rw [UpdatePresence_eq m p, UpdatePresence_eq]
  by_cases ha : p.User.Avatar = []
  · cases hm : m.MemberSet <;>
    by_cases hu : p.User.Username = [] <;>
    by_cases hd : p.User.Discriminator = [] <;>
    simp only [ha, if_true, presenceBeforeAvatar_eq, statusAfter_idem, hm, hu, hd,
      Bool.false_eq_true, if_false]
  · simp only [ha, if_false, ParseAvatar_panicked]
    cases ho : avatarOverflows p.User.Avatar <;>
    cases hm : m.MemberSet <;>
    by_cases hu : p.User.Username = [] <;>
    by_cases hd : p.User.Discriminator = [] <;>
    simp only [Bool.false_eq_true, if_false, if_true, presenceBeforeAvatar_eq, ParseAvatar,
      hexDecode, hexDecodeLoop_idem, statusAfter_idem, hm, hu, hd]

/-! ## Lemmas on decimal formatting and parsing -/

theorem toDigitsCore_append (b : Nat) :
    ∀ (fuel n : Nat) (ds : List Char),
      Nat.toDigitsCore b fuel n ds = Nat.toDigitsCore b fuel n [] ++ ds := by
  intro fuel
  induction fuel with
  | zero => intro n ds; simp [Nat.toDigitsCore]
  | succ f ih =>
    intro n ds
    simp only [Nat.toDigitsCore]
    split_ifs
    · simp
    · rw [ih (n / b) (Nat.digitChar (n % b) :: ds), ih (n / b) [Nat.digitChar (n % b)]]
      simp

theorem toDigitsCore_fuel :
    ∀ (f1 f2 n : Nat), n < f1 → n < f2 →
      Nat.toDigitsCore 10 f1 n [] = Nat.toDigitsCore 10 f2 n [] := by
  intro f1
  induction f1 with
  | zero => intro f2 n h; omega
  | succ f ih =>
    intro f2 n h1 h2
    cases f2 with
    | zero => omega
    | succ g =>
      simp only [Nat.toDigitsCore]
      split_ifs with h0
      · rfl
      · rw [toDigitsCore_append 10 f, toDigitsCore_append 10 g,
          ih g (n / 10) (by omega) (by omega)]

theorem toDigits_lt (n : Nat) (h : n < 10) : Nat.toDigits 10 n = [Nat.digitChar n] := by
  have h0 : n / 10 = 0 := by omega
  have h1 : n % 10 = n := by omega
  simp [Nat.toDigits, Nat.toDigitsCore, h0, h1]

theorem toDigits_ge (n : Nat) (h : 10 ≤ n) :
    Nat.toDigits 10 n = Nat.toDigits 10 (n / 10) ++ [Nat.digitChar (n % 10)] := by
  have h0 : n / 10 ≠ 0 := by omega
  have e1 : Nat.toDigits 10 n = Nat.toDigitsCore 10 n (n / 10) [Nat.digitChar (n % 10)] := by
    show Nat.toDigitsCore 10 (n + 1) n [] = _
    rw [Nat.toDigitsCore]
    simp only [h0, if_false]
  have e2 : Nat.toDigits 10 (n / 10) = Nat.toDigitsCore 10 (n / 10 + 1) (n / 10) [] := rfl
  rw [e1, e2, toDigitsCore_append,
    toDigitsCore_fuel n (n / 10 + 1) (n / 10) (by omega) (by omega)]

theorem digitChar_byte (k : Nat) (h : k < 10) :
    (Fin.ofNat (Nat.digitChar k).toNat : Byte) = Fin.ofNat (48 + k) := by
  interval_cases k <;> rfl

theorem decimal_lt (n : Nat) (h : n < 10) : decimal n = [Fin.ofNat (48 + n)] := by
  simp only [decimal, toDigits_lt n h, List.map_cons, List.map_nil, digitChar_byte n h]

theorem decimal_ge (n : Nat) (h : 10 ≤ n) :
    decimal n = decimal (n / 10) ++ [Fin.ofNat (48 + n % 10)] := by
  simp only [decimal, toDigits_ge n h, List.map_append, List.map_cons, List.map_nil,
    digitChar_byte (n % 10) (by omega)]

theorem digitByte_val (k : Nat) (h : k < 10) : (Fin.ofNat (48 + k) : Byte).val = 48 + k := by
  simp only [Fin.ofNat]
  omega

theorem digitByte_isDigit (k : Nat) (h : k < 10) : isDigit (Fin.ofNat (48 + k)) = true := by
  simp only [isDigit, digitByte_val k h]
  simp
  omega

theorem decimalValue_snoc (xs : GoString) (c : Byte) :
    decimalValue (xs ++ [c]) = decimalValue xs * 10 + (c.val - 48) := by
  simp [decimalValue, List.foldl_append]

theorem decimal_length_succ (n : Nat) (h : 10 ≤ n) :
    (decimal n).length = (decimal (n / 10)).length + 1 := by
  rw [decimal_ge n h]
  simp

theorem decimal_isDigit (n : Nat) : ∀ c ∈ decimal n, isDigit c = true := by
  induction n using Nat.strong_induction_on with
  | _ n ih =>
    intro c hc
    by_cases h : n < 10
    · rw [decimal_lt n h] at hc
      simp only [List.mem_singleton] at hc
      rw [hc]
      exact digitByte_isDigit n h
    · rw [decimal_ge n (by omega)] at hc
      simp only [List.mem_append, List.mem_singleton] at hc
      rcases hc with hc | hc
      · exact ih (n / 10) (by omega) c hc
      · rw [hc]
        exact digitByte_isDigit (n % 10) (by omega)

theorem decimal_value (n : Nat) : decimalValue (decimal n) = n := by
  induction n using Nat.strong_induction_on with
  | _ n ih =>
    by_cases h : n < 10
    · rw [decimal_lt n h]
      simp only [decimalValue, List.foldl_cons, List.foldl_nil, digitByte_val n h]
      omega
    · rw [decimal_ge n (by omega), decimalValue_snoc, ih (n / 10) (by omega),
        digitByte_val (n % 10) (by omega)]
      omega

theorem decimal_head (n : Nat) (hn : n ≠ 0) : (decimal n).head? ≠ some 48 := by
  induction n using Nat.strong_induction_on with
  | _ n ih =>
    by_cases h : n < 10
    · rw [decimal_lt n h]
      simp only [List.head?_cons, ne_eq, Option.some.injEq]
      intro he
      have hv := congrArg Fin.val he
      rw [digitByte_val n h] at hv
      simp at hv
      omega
    · rw [decimal_ge n (by omega)]
      have hrec := ih (n / 10) (by omega) (by omega)
      cases hd : decimal (n / 10) with
      | nil =>
        have hl := decimal_length_succ n (by omega)
        have : (decimal (n / 10)).length = 0 := by rw [hd]; rfl
        by_cases h2 : n / 10 < 10
        · rw [decimal_lt _ h2] at hd
          cases hd
        · rw [decimal_ge _ (by omega)] at hd
          simp at hd
      | cons x rest =>
        rw [hd] at hrec
        simpa using hrec

theorem decimal_length (n : Nat) :
    (n < 10 → (decimal n).length = 1) ∧
    (10 ≤ n → n < 100 → (decimal n).length = 2) ∧
    (100 ≤ n → n < 1000 → (decimal n).length = 3) ∧
    (1000 ≤ n → n < 10000 → (decimal n).length = 4) := by
  have h1 : ∀ k, k < 10 → (decimal k).length = 1 := by
    intro k hk
    rw [decimal_lt k hk]
    rfl
  have h2 : ∀ k, 10 ≤ k → k < 100 → (decimal k).length = 2 := by
    intro k hk hk2
    rw [decimal_length_succ k hk, h1 (k / 10) (by omega)]
  have h3 : ∀ k, 100 ≤ k → k < 1000 → (decimal k).length = 3 := by
    intro k hk hk2
    rw [decimal_length_succ k (by omega), h2 (k / 10) (by omega) (by omega)]
  have h4 : ∀ k, 1000 ≤ k → k < 10000 → (decimal k).length = 4 := by
    intro k hk hk2
    rw [decimal_length_succ k (by omega), h3 (k / 10) (by omega) (by omega)]
  exact ⟨h1 n, h2 n, h3 n, h4 n⟩

theorem StrDiscriminator_nonneg (m : MemberState) (n : Nat) (hD : m.Discriminator = (n : Int)) :
    StrDiscriminator m =
      (if n < 10 then goStr "000" else if n < 100 then goStr "00"
       else if n < 1000 then goStr "0" else []) ++ decimal n := by
  have hneg : ¬ ((n : Int) < 0) := by omega
  have h10 : ((n : Int) < 10) ↔ n < 10 := by omega
  have h100 : ((n : Int) < 100) ↔ n < 100 := by omega
  have h1000 : ((n : Int) < 1000) ↔ n < 1000 := by omega
  simp only [StrDiscriminator, FormatInt10, hD, hneg, if_false, Int.natAbs_ofNat, h10, h100,
    h1000]
  split_ifs <;> simp

theorem decimalValue_zero_cons (s : GoString) :
    decimalValue ((48 : Byte) :: s) = decimalValue s := by
  have h : (0 * 10 + (((48 : Byte)).val - 48)) = 0 := by decide
  simp only [decimalValue, List.foldl_cons, h]

theorem StrDiscriminator_four (m : MemberState) (n : Nat) (hD : m.Discriminator = (n : Int))
    (h : n ≤ 9999) :
    (StrDiscriminator m).length = 4 ∧
    (∀ c ∈ StrDiscriminator m, isDigit c = true) ∧
    decimalValue (StrDiscriminator m) = n := by
  have hl := decimal_length n
  have hd := decimal_isDigit n
  have hv := decimal_value n
  have z3 : goStr "000" = [48, 48, 48] := by decide
  have z2 : goStr "00" = [48, 48] := by decide
  have z1 : goStr "0" = [48] := by decide
  have hz : isDigit 48 = true := by decide
  rw [StrDiscriminator_nonneg m n hD]
  split_ifs with h1 h2 h3
  · rw [z3]
    refine ⟨by simp [hl.1 h1], ?_, ?_⟩
    · intro c hc
      simp only [List.cons_append, List.nil_append, List.mem_cons] at hc
      rcases hc with hc | hc | hc | hc
      · rw [hc]; exact hz
      · rw [hc]; exact hz
      · rw [hc]; exact hz
      · exact hd c hc
    · simp only [List.cons_append, List.nil_append, decimalValue_zero_cons, hv]
  · rw [z2]
    refine ⟨by simp [hl.2.1 (by omega) h2], ?_, ?_⟩
    · intro c hc
      simp only [List.cons_append, List.nil_append, List.mem_cons] at hc
      rcases hc with hc | hc | hc
      · rw [hc]; exact hz
      · rw [hc]; exact hz
      · exact hd c hc
    · simp only [List.cons_append, List.nil_append, decimalValue_zero_cons, hv]
  · rw [z1]
    refine ⟨by simp [hl.2.2.1 (by omega) h3], ?_, ?_⟩
    · intro c hc
      simp only [List.cons_append, List.nil_append, List.mem_cons] at hc
      rcases hc with hc | hc
      · rw [hc]; exact hz
      · exact hd c hc
    · simp only [List.cons_append, List.nil_append, decimalValue_zero_cons, hv]
  · refine ⟨by simp [hl.2.2.2 (by omega) (by omega)], ?_, ?_⟩
    · intro c hc
      simp only [List.nil_append] at hc
      exact hd c hc
    · simp only [List.nil_append, hv]

set_option maxRecDepth 1000000 in
theorem parse_digit_expr : ∀ c : Byte, isDigit c = true →
    (if 48 ≤ c ∧ c ≤ 57 then some (c - 48)
     else if 97 ≤ lower c ∧ lower c ≤ 122 then some (lower c - 97 + 10)
     else none) = some (Fin.ofNat (c.val - 48)) := by
  decide

set_option maxRecDepth 1000000 in
theorem digit_val_le : ∀ c : Byte, isDigit c = true →
    ((Fin.ofNat (c.val - 48) : Byte).val = c.val - 48 ∧ c.val - 48 < 10) := by
  decide

theorem parseUintLoop_digit (cutoff M acc : Nat) (c : Byte) (rest : GoString)
    (hc : isDigit c = true) (hacc : acc < cutoff)
    (hfit : acc * 10 + (c.val - 48) ≤ M) (hM : M < 2 ^ 64) :
    parseUintLoop 10 cutoff M acc (c :: rest) =
      parseUintLoop 10 cutoff M (acc * 10 + (c.val - 48)) rest := by
  obtain ⟨hv, hlt⟩ := digit_val_le c hc
  have h2 : ¬ (cutoff ≤ acc) := by omega
  have h3 : acc * 10 % 2 ^ 64 = acc * 10 := Nat.mod_eq_of_lt (by omega)
  have h4 : (acc * 10 + (c.val - 48)) % 2 ^ 64 = acc * 10 + (c.val - 48) :=
    Nat.mod_eq_of_lt (by omega)
  have h5 : ¬ (acc * 10 + (c.val - 48) < acc * 10 ∨ M < acc * 10 + (c.val - 48)) := by omega
  have h6 : ¬ (10 % 256 ≤ c.val - 48) := by omega
  simp only [parseUintLoop, parse_digit_expr c hc, h2, if_false, hv, h3, h4, h5, h6]

theorem parseUintLoop_append (cutoff M : Nat) (xs ys : GoString) :
    ∀ (acc v : Nat), parseUintLoop 10 cutoff M acc xs = (v, none) →
      parseUintLoop 10 cutoff M acc (xs ++ ys) = parseUintLoop 10 cutoff M v ys := by
  induction xs with
  | nil =>
    intro acc v h
    simp only [parseUintLoop, Prod.mk.injEq, and_true] at h
    rw [List.nil_append, h]
  | cons c rest ih =>
    intro acc v h
    simp only [List.cons_append, parseUintLoop] at h ⊢
    split at h
    · simp at h
    · split_ifs at h ⊢
      all_goals first
        | (simp at h; done)
        | exact ih _ v h

theorem parseUintLoop_decimal (cutoff M : Nat) (hM : M < 2 ^ 64) (hcut : M / 10 < cutoff)
    (n : Nat) (hn : n ≤ M) : parseUintLoop 10 cutoff M 0 (decimal n) = (n, none) := by
  induction n using Nat.strong_induction_on with
  | _ n ih =>
    by_cases h : n < 10
    · rw [decimal_lt n h, parseUintLoop_digit cutoff M 0 _ [] (digitByte_isDigit n h)
        (by omega) (by rw [digitByte_val n h]; omega) hM, digitByte_val n h]
      simp only [parseUintLoop]
      congr 1
      omega
    · have hrec := ih (n / 10) (by omega) (by omega)
      rw [decimal_ge n (by omega), parseUintLoop_append cutoff M _ _ 0 (n / 10) hrec,
        parseUintLoop_digit cutoff M (n / 10) _ [] (digitByte_isDigit (n % 10) (by omega))
          (by omega) (by rw [digitByte_val (n % 10) (by omega)]; omega) hM,
        digitByte_val (n % 10) (by omega)]
      simp only [parseUintLoop]
      congr 1
      omega

theorem parseUintLoop_zero_cons (cutoff M : Nat) (hM : M < 2 ^ 64) (hcut : 0 < cutoff)
    (s : GoString) :
    parseUintLoop 10 cutoff M 0 ((48 : Byte) :: s) = parseUintLoop 10 cutoff M 0 s := by
  have h48 : ((48 : Byte).val - 48) = 0 := by decide
  rw [parseUintLoop_digit cutoff M 0 48 s (by decide) hcut (by rw [h48]; omega) hM, h48]

set_option maxRecDepth 1000000 in
theorem digit_not_sign : ∀ c : Byte, isDigit c = true →
    ((c == 45) = false ∧ (c == 43 || c == 45) = false) := by
  decide

theorem ParseInt_of_digits (c : Byte) (t : GoString) (n : Nat) (hc : isDigit c = true)
    (hparse : parseUintLoop 10 ((2 ^ 64 - 1) / 10 + 1) (2 ^ 32 - 1) 0 (c :: t) = (n, none))
    (hn : n ≤ 2147483647) :
    ParseInt (c :: t) 10 32 = ((n : Int), none) := by
  obtain ⟨h1, h2⟩ := digit_not_sign c hc
  have h45 : c ≠ 45 := by simpa using h1
  have h43 : c ≠ 43 := by
    intro h
    rw [h] at h2
    simp at h2
  have hu : ParseUint (c :: t) 10 32 = (n, none) := by
    simp only [ParseUint, hparse]
    simp
  have hcut : ¬ (2147483648 ≤ n) := by omega
  have h64 : toInt64 (n : Int) = (n : Int) := by
    unfold toInt64
    omega
  simp [ParseInt, h43, h45, hu, hcut, h64]

theorem ParseInt_StrDiscriminator (m : MemberState) (n : Nat)
    (hD : m.Discriminator = (n : Int)) (hn : n ≤ 2147483647) :
    ParseInt (StrDiscriminator m) 10 32 = ((n : Int), none) := by
  have hM : (2 ^ 32 - 1 : Nat) < 2 ^ 64 := by norm_num
  have hcut : (2 ^ 32 - 1 : Nat) / 10 < (2 ^ 64 - 1) / 10 + 1 := by norm_num
  have hpos : 0 < (2 ^ 64 - 1) / 10 + 1 := by norm_num
  have hdec := parseUintLoop_decimal ((2 ^ 64 - 1) / 10 + 1) (2 ^ 32 - 1) hM hcut n
    (by norm_num; omega)
  have hz := parseUintLoop_zero_cons ((2 ^ 64 - 1) / 10 + 1) (2 ^ 32 - 1) hM hpos
  have z3 : goStr "000" = [48, 48, 48] := by decide
  have z2 : goStr "00" = [48, 48] := by decide
  have z1 : goStr "0" = [48] := by decide
  have hz48 : isDigit 48 = true := by decide
  rw [StrDiscriminator_nonneg m n hD]
  split_ifs with h1 h2 h3
  · rw [z3]
    simp only [List.cons_append, List.nil_append]
    exact ParseInt_of_digits 48 _ n hz48 (by rw [hz, hz, hz]; exact hdec) hn
  · rw [z2]
    simp only [List.cons_append, List.nil_append]
    exact ParseInt_of_digits 48 _ n hz48 (by rw [hz, hz]; exact hdec) hn
  · rw [z1]
    simp only [List.cons_append, List.nil_append]
    exact ParseInt_of_digits 48 _ n hz48 (by rw [hz]; exact hdec) hn
  · rw [List.nil_append]
    cases hd : decimal n with
    | nil =>
      have := (decimal_length n).2.2.2
      by_cases h4 : n < 10
      · rw [decimal_lt n h4] at hd
        cases hd
      · rw [decimal_ge n (by omega)] at hd
        simp at hd
    | cons c t =>
      have hc : isDigit c = true := decimal_isDigit n c (by rw [hd]; simp)
      rw [hd] at hdec
      exact ParseInt_of_digits c t n hc hdec hn

/-! ## Lemmas on the export and on the range of the discriminator -/

theorem ParseAvatar_nil (m : MemberState) :
    ParseAvatar m [] = { state := { m with AnimatedAvatar := false }, panicked := false } := rfl

theorem ParseAvatar_StrAvatar (dst m : MemberState) (text : GoString)
    (hs : StrAvatar m = some text)
    (hav : m.Avatar ≠ ZeroAvatar ∨ m.AnimatedAvatar = false)
    (hdst : dst.Avatar = ZeroAvatar) :
    ParseAvatar dst text =
      { state := { dst with AnimatedAvatar := m.AnimatedAvatar, Avatar := m.Avatar },
        panicked := false } := by
  rw [StrAvatar_eq] at hs
  by_cases hz : m.Avatar = ZeroAvatar
  · rw [if_pos hz] at hs
    have ha : m.AnimatedAvatar = false := by
      rcases hav with h | h
      · exact absurd hz h
      · exact h
    cases hs
    rw [ParseAvatar_nil, ha, hz, ← hdst]
  · rw [if_neg hz] at hs
    cases hs
    exact ParseAvatar_hexText dst m.Avatar m.AnimatedAvatar

theorem toInt32_small (n : Nat) (hn : n ≤ 2147483647) : toInt32 (n : Int) = (n : Int) := by
  unfold toInt32
  omega

theorem UpdateMember_Discriminator (rfc3339 : GoString → Option GoTime) (m : MemberState)
    (member : Member) :
    (UpdateMember rfc3339 m member).state.Discriminator =
      if avatarOverflows member.User.Avatar then m.Discriminator
      else toInt32 (ParseInt member.User.Discriminator 10 32).1 := by
  rw [UpdateMember_eq]
  cases ho : avatarOverflows member.User.Avatar
  · simp only [Bool.false_eq_true, if_false]
  · simp only [if_true, memberBeforeAvatar_eq, ParseAvatar]

theorem MSFromDGoMember_some_Discriminator (rfc3339 : GoString → Option GoTime)
    (gs : Option Nat) (member : Member) (r : MemberState)
    (h : MSFromDGoMember rfc3339 gs member = some r) :
    r.Discriminator = toInt32 (ParseInt member.User.Discriminator 10 32).1 := by
  cases ho : avatarOverflows member.User.Avatar
  · obtain ⟨r1, hr1, hd, _⟩ := MSFromDGoMember_of_fits rfc3339 gs member ho
    rw [h] at hr1
    cases hr1
    exact hd
  · unfold MSFromDGoMember at h
    simp only [ParseAvatar_panicked, ho, if_true] at h
    cases h

theorem discriminatorInRange_iff (text : GoString) :
    discriminatorInRange text = true ↔
      (0 ≤ toInt32 (ParseInt text 10 32).1 ∧ toInt32 (ParseInt text 10 32).1 ≤ 9999) := by
  simp [discriminatorInRange]

theorem applyUpdate_inRange (rfc3339 : GoString → Option GoTime) (m : MemberState)
    (u : Update) (hm : 0 ≤ m.Discriminator ∧ m.Discriminator ≤ 9999)
    (hu : updateInRange u = true) :
    0 ≤ (applyUpdate rfc3339 m u).state.Discriminator ∧
    (applyUpdate rfc3339 m u).state.Discriminator ≤ 9999 := by
  cases u with
  | member payload =>
    simp only [applyUpdate, UpdateMember_Discriminator]
    simp only [updateInRange, discriminatorInRange_iff] at hu
    split_ifs
    · exact hm
    · exact hu
  | presence payload =>
    simp only [applyUpdate, UpdatePresence_Discriminator]
    simp only [updateInRange, Bool.or_eq_true, decide_eq_true_eq, discriminatorInRange_iff] at hu
    split_ifs with he
    · exact hm
    · rcases hu with hu | hu
      · exact absurd hu he
      · exact hu

theorem applyUpdates_inRange (rfc3339 : GoString → Option GoTime) (us : List Update) :
    ∀ m : MemberState, (0 ≤ m.Discriminator ∧ m.Discriminator ≤ 9999) →
      (∀ u ∈ us, updateInRange u = true) →
      0 ≤ (applyUpdates rfc3339 m us).state.Discriminator ∧
      (applyUpdates rfc3339 m us).state.Discriminator ≤ 9999 := by
  induction us with
  | nil => intro m hm _; exact hm
  | cons u rest ih =>
    intro m hm hus
    have hu := hus u (by simp)
    have hstep := applyUpdate_inRange rfc3339 m u hm hu
    unfold applyUpdates
    simp only []
    split_ifs
    · exact hstep
    · exact ih _ hstep (fun v hv => hus v (by simp [hv]))

/-- The status switch of `UpdatePresence`: when the avatar text of the payload does
not overflow the hash the call returns normally and the status texts `online`,
`idle`, `dnd`, `invisible`, `offline` give the matching status; for every payload,
the empty text or any other text leaves the status as it was, and a status that was
set is never reset to not-set. -/
theorem UpdatePresence_status_switch (m : MemberState) (p : Presence) :
    (avatarOverflows p.User.Avatar = false →
      (UpdatePresence m p).panicked = false ∧
      (p.Status = goStr "online" → (UpdatePresence m p).state.PresenceStatus = StatusOnline) ∧
      (p.Status = goStr "idle" → (UpdatePresence m p).state.PresenceStatus = StatusIdle) ∧
      (p.Status = goStr "dnd" →
        (UpdatePresence m p).state.PresenceStatus = StatusDoNotDisturb) ∧
      (p.Status = goStr "invisible" →
        (UpdatePresence m p).state.PresenceStatus = StatusInvisible) ∧
      (p.Status = goStr "offline" →
        (UpdatePresence m p).state.PresenceStatus = StatusOffline)) ∧
    (p.Status ≠ goStr "online" → p.Status ≠ goStr "idle" → p.Status ≠ goStr "dnd" →
      p.Status ≠ goStr "invisible" → p.Status ≠ goStr "offline" →
      (UpdatePresence m p).state.PresenceStatus = m.PresenceStatus) ∧
    (p.Status = [] → (UpdatePresence m p).state.PresenceStatus = m.PresenceStatus) ∧
    (m.PresenceStatus ≠ StatusNotSet →
      (UpdatePresence m p).state.PresenceStatus ≠ StatusNotSet) := by
  have hs := UpdatePresence_PresenceStatus m p
  have hc := statusAfter_cases m.PresenceStatus p.Status
  refine ⟨?_, ?_, ?_, ?_⟩
  · intro hfits
    rw [hfits] at hs
    simp only [Bool.false_eq_true, if_false] at hs
    rw [hs, UpdatePresence_panicked, hfits]
    exact ⟨rfl, hc.1, hc.2.1, hc.2.2.1, hc.2.2.2.1, hc.2.2.2.2.1⟩
  · intro h1 h2 h3 h4 h5
    rw [hs, hc.2.2.2.2.2 h1 h2 h3 h4 h5, ite_self]
  · intro he
    rw [hs, he, statusAfter_nil, ite_self]
  · intro hset
    rw [hs]
    split_ifs
    · exact hset
    · exact statusAfter_set _ _ hset

/-! ## The claims -/

/-- C1 (avatar round trip): for a record whose hash is not the all-zero sentinel,
`StrAvatar` returns a text, and `ParseAvatar` of that text on any record returns
normally with the same hash and the same animated flag. -/
theorem avatar_round_trip (src dst : MemberState) (hne : src.Avatar ≠ ZeroAvatar) :
    ∃ text, StrAvatar src = some text ∧
      (ParseAvatar dst text).panicked = false ∧
      (ParseAvatar dst text).state.Avatar = src.Avatar ∧
      (ParseAvatar dst text).state.AnimatedAvatar = src.AnimatedAvatar := by
  refine ⟨if src.AnimatedAvatar then goStr "a_" ++ hexText src.Avatar.val
    else hexText src.Avatar.val, ?_, ?_⟩
  · rw [StrAvatar_eq, if_neg hne]
  · rw [ParseAvatar_hexText]
    exact ⟨rfl, rfl, rfl⟩

/-- Witness of C1: the sample record has a non-zero hash, and its avatar text read
back into a fresh record gives the same hash and flag. -/
theorem avatar_round_trip_witness :
    sampleRecord.Avatar ≠ ZeroAvatar ∧
    ∃ text, StrAvatar sampleRecord = some text ∧
      (ParseAvatar freshRecord text).panicked = false ∧
      (ParseAvatar freshRecord text).state.Avatar = sampleRecord.Avatar ∧
      (ParseAvatar freshRecord text).state.AnimatedAvatar = sampleRecord.AnimatedAvatar :=
  ⟨by decide, avatar_round_trip sampleRecord freshRecord (by decide)⟩

/-- C2 (nickname precedence): `UpdatePresence` sets `Nick` to the payload's nickname
exactly when `MemberSet` is false before the call and leaves it unchanged otherwise;
after `UpdateMember` with a payload, followed by any run of presence merges, `Nick`
is that payload's nickname; and a presence merge on a new record sets `Nick` to the
presence payload's nickname. -/
theorem nickname_precedence (rfc3339 : GoString → Option GoTime) (m : MemberState)
    (member : Member) (p : Presence) (ps : List Presence) (gs : Option Nat) (id : Int)
    (bot : Bool) :
    (UpdatePresence m p).state.Nick = (if m.MemberSet then m.Nick else p.Nick) ∧
    (UpdateMemberThenPresences rfc3339 m member ps).state.Nick = member.Nick ∧
    (UpdatePresence { MemberState.zero with Guild := gs, ID := id, Bot := bot } p).state.Nick
      = p.Nick := by
  refine ⟨UpdatePresence_Nick m p, ?_, ?_⟩
  · unfold UpdateMemberThenPresences
    simp only []
    have hfront := (UpdateMember_front rfc3339 m member).2.1
    split_ifs with hp
    · exact hfront
    · have hfit : avatarOverflows member.User.Avatar = false := by
        rw [UpdateMember_panicked] at hp
        simpa using hp
      rw [UpdatePresences_Nick ps _ (UpdateMember_of_fits rfc3339 m member hfit).2]
      exact hfront
  · rw [UpdatePresence_Nick]
    rfl

/-- C3 (main-activity selection): after `UpdatePresence`, `PresenceGame` is absent
for an empty activity list, and otherwise the copy of the last activity of kind 1
if there is one, else of the first activity. -/
theorem main_activity_selection (m : MemberState) (p : Presence) :
    (UpdatePresence m p).state.PresenceGame =
      (mainActivitySpec p.Activities).map lightGameOf := by
  rw [UpdatePresence_PresenceGame, mainActivityLoop_eq_spec]

/-- C4, evaluated at the failing input (a membership payload with an empty avatar
text): `UpdateMember` returns normally on both records, the record that held a hash
keeps it, the new record keeps the zero hash, and only the animated flag is reset. -/
theorem UpdateMember_keeps_previous_hash :
    (UpdateMember rfc3339Sample sampleRecord memberNoAvatar).panicked = false ∧
    (UpdateMember rfc3339Sample freshRecord memberNoAvatar).panicked = false ∧
    (UpdateMember rfc3339Sample sampleRecord memberNoAvatar).state.Avatar = sampleHash ∧
    (UpdateMember rfc3339Sample freshRecord memberNoAvatar).state.Avatar = ZeroAvatar ∧
    sampleHash ≠ ZeroAvatar ∧
    (UpdateMember rfc3339Sample sampleRecord memberNoAvatar).state.AnimatedAvatar = false := by
  decide

/-- C5, counterexample: a discriminator text of digits outside the signed 32-bit
range does not parse (`ErrRange`), the merge returns normally, and the stored
discriminator is 2147483647, not 0. -/
theorem discriminator_range_counterexample :
    (ParseInt memberBigDiscriminator.User.Discriminator 10 32).2 = some NumError.ErrRange ∧
    (UpdateMember rfc3339Sample sampleRecord memberBigDiscriminator).panicked = false ∧
    (UpdateMember rfc3339Sample sampleRecord memberBigDiscriminator).state.Discriminator
      = 2147483647 ∧
    (MSFromDGoMember rfc3339Sample (some 1) memberBigDiscriminator).map
      (fun r => r.Discriminator) = some 2147483647 := by
  decide

/-- C5, amended: when the discriminator text fails to parse with error `e`, the
stored discriminator is `0` for a syntax error (text that is no number, or empty)
and the bound of the signed 32-bit range on the side of the sign for a range error.
For a membership payload whose avatar text does not overflow the hash,
`MSFromDGoMember` returns a record and `UpdateMember` returns normally, both with
that value and with `MemberSet` set; `UpdatePresence` stores that value when the
text is non-empty and leaves the discriminator unchanged when it is empty. -/
theorem discriminator_parse_failure (text : GoString) (e : NumError)
    (rfc3339 : GoString → Option GoTime) (gs : Option Nat) (m : MemberState)
    (member : Member) (presence : Presence)
    (herr : (ParseInt text 10 32).2 = some e)
    (hmember : member.User.Discriminator = text)
    (hpresence : presence.User.Discriminator = text)
    (hfits : avatarOverflows member.User.Avatar = false) :
    (∃ r, MSFromDGoMember rfc3339 gs member = some r ∧
      r.Discriminator = valueOnError text e ∧ r.MemberSet = true) ∧
    (UpdateMember rfc3339 m member).panicked = false ∧
    (UpdateMember rfc3339 m member).state.Discriminator = valueOnError text e ∧
    (UpdateMember rfc3339 m member).state.MemberSet = true ∧
    (UpdatePresence m presence).state.Discriminator =
      (if text = [] then m.Discriminator else valueOnError text e) := by
  have hv := ParseInt_error_value text e herr
  obtain ⟨r, hr, hd, hs⟩ := MSFromDGoMember_of_fits rfc3339 gs member hfits
  obtain ⟨hd2, hs2⟩ := UpdateMember_of_fits rfc3339 m member hfits
  refine ⟨⟨r, hr, ?_, hs⟩, ?_, ?_, hs2, ?_⟩
  · rw [hd, hmember, hv]
  · rw [UpdateMember_panicked, hfits]
  · rw [hd2, hmember, hv]
  · rw [UpdatePresence_Discriminator, hpresence, hv]

/-- Witness of C5: the text `12a` is a syntax error, and the sample payloads that
carry it store the discriminator 0. -/
theorem discriminator_parse_failure_witness :
    (ParseInt (goStr "12a") 10 32).2 = some NumError.ErrSyntax ∧
    avatarOverflows memberBadDiscriminator.User.Avatar = false ∧
    (∃ r, MSFromDGoMember rfc3339Sample (some 1) memberBadDiscriminator = some r ∧
      r.Discriminator = valueOnError (goStr "12a") NumError.ErrSyntax ∧ r.MemberSet = true) ∧
    (UpdateMember rfc3339Sample sampleRecord memberBadDiscriminator).panicked = false ∧
    (UpdateMember rfc3339Sample sampleRecord memberBadDiscriminator).state.Discriminator
      = valueOnError (goStr "12a") NumError.ErrSyntax ∧
    (UpdateMember rfc3339Sample sampleRecord memberBadDiscriminator).state.MemberSet = true ∧
    (UpdatePresence sampleRecord presenceBadDiscriminator).state.Discriminator =
      (if goStr "12a" = [] then sampleRecord.Discriminator
       else valueOnError (goStr "12a") NumError.ErrSyntax) :=
  ⟨by decide, by decide,
    discriminator_parse_failure (goStr "12a") NumError.ErrSyntax rfc3339Sample (some 1)
      sampleRecord memberBadDiscriminator presenceBadDiscriminator
      (by decide) rfl rfl (by decide)⟩

/-- C6, counterexample: the record joined at a known time, the payload's joined-at
text `yesterday` is non-empty and no timestamp, and after `UpdateMember` the join
time is the zero time, not the time held before. -/
theorem joinedAt_reset_counterexample :
    memberBadJoinedAt.JoinedAt ≠ [] ∧
    rfc3339Sample memberBadJoinedAt.JoinedAt = none ∧
    sampleRecord.JoinedAt = 63713433600000000000 ∧
    (UpdateMember rfc3339Sample sampleRecord memberBadJoinedAt).panicked = false ∧
    (UpdateMember rfc3339Sample sampleRecord memberBadJoinedAt).state.JoinedAt = 0 := by
  decide

/-- C6, amended: for a membership payload whose joined-at text is non-empty and
does not parse as a timestamp, `JoinedAt` after `UpdateMember` is the zero time,
whatever it was before. -/
theorem joinedAt_zero_on_parse_failure (rfc3339 : GoString → Option GoTime)
    (m : MemberState) (member : Member)
    (hne : member.JoinedAt ≠ []) (hbad : rfc3339 member.JoinedAt = none) :
    (UpdateMember rfc3339 m member).state.JoinedAt = 0 := by
  rw [(UpdateMember_front rfc3339 m member).2.2.2, if_neg hne]
  simp only [TimestampParse, hbad]

/-- Witness of C6: the sample payload with the joined-at text `yesterday`. -/
theorem joinedAt_zero_on_parse_failure_witness :
    memberBadJoinedAt.JoinedAt ≠ [] ∧
    rfc3339Sample memberBadJoinedAt.JoinedAt = none ∧
    (UpdateMember rfc3339Sample sampleRecord memberBadJoinedAt).state.JoinedAt = 0 :=
  ⟨by decide, by decide,
    joinedAt_zero_on_parse_failure rfc3339Sample sampleRecord memberBadJoinedAt
      (by decide) (by decide)⟩

/-- C7, evaluated at the failing input (an avatar text of 34 hexadecimal digits):
`ParseAvatar` panics at the write of a 17th byte, so `UpdateMember` and
`UpdatePresence` panic and `MSFromDGoMember` returns no record. -/
theorem ParseAvatar_panics_on_long_text :
    longAvatar.length = 34 ∧
    (ParseAvatar freshRecord longAvatar).panicked = true ∧
    (UpdateMember rfc3339Sample sampleRecord memberLongAvatar).panicked = true ∧
    MSFromDGoMember rfc3339Sample (some 1) memberLongAvatar = none ∧
    (UpdatePresence sampleRecord presenceLongAvatar).panicked = true := by
  decide

/-- C8 (role replacement): after `UpdateMember`, `Roles` is the payload's role list,
whatever the record held; after two merges it is the second payload's list. -/
theorem role_replacement (rfc3339 : GoString → Option GoTime) (m : MemberState)
    (first second : Member) :
    (UpdateMember rfc3339 m first).state.Roles = first.Roles ∧
    (UpdateMember rfc3339 (UpdateMember rfc3339 m first).state second).state.Roles
      = second.Roles :=
  ⟨(UpdateMember_front rfc3339 m first).1, (UpdateMember_front rfc3339 _ second).1⟩

/-- C9 (join time patched only when supplied): with an empty joined-at text
`UpdateMember` leaves `JoinedAt` as it was; with a non-empty text that parses as
the timestamp `t` it sets `JoinedAt` to `t`. -/
theorem joinedAt_patched_when_supplied (rfc3339 : GoString → Option GoTime)
    (m : MemberState) (member : Member) :
    (member.JoinedAt = [] → (UpdateMember rfc3339 m member).state.JoinedAt = m.JoinedAt) ∧
    (∀ t, member.JoinedAt ≠ [] → rfc3339 member.JoinedAt = some t →
      (UpdateMember rfc3339 m member).state.JoinedAt = t) := by
  have h := (UpdateMember_front rfc3339 m member).2.2.2
  constructor
  · intro he
    rw [h, if_pos he]
  · intro t hne ht
    rw [h, if_neg hne]
    simp only [TimestampParse, ht]

/-- Witness of C9: the payload without join time leaves the sample record's join
time, and the payload with the text `2020-01-01T00:00:00Z` sets it on a new record. -/
theorem joinedAt_patched_when_supplied_witness :
    (UpdateMember rfc3339Sample sampleRecord memberNoJoinedAt).state.JoinedAt
      = sampleRecord.JoinedAt ∧
    (UpdateMember rfc3339Sample freshRecord sampleMember).state.JoinedAt
      = 63713433600000000000 :=
  ⟨(joinedAt_patched_when_supplied rfc3339Sample sampleRecord memberNoJoinedAt).1 rfl,
   (joinedAt_patched_when_supplied rfc3339Sample freshRecord sampleMember).2 _
     (by decide) (by decide)⟩

/-- C10 (empty string means unchanged in a presence merge): `UpdatePresence` leaves
`Username` unchanged for an empty user name and sets it for a non-empty one, leaves
`Discriminator` unchanged for an empty discriminator text, and leaves `Avatar` and
`AnimatedAvatar` unchanged for an empty avatar text. -/
theorem presence_empty_means_unchanged (m : MemberState) (p : Presence) :
    (p.User.Username = [] → (UpdatePresence m p).state.Username = m.Username) ∧
    (p.User.Username ≠ [] → (UpdatePresence m p).state.Username = p.User.Username) ∧
    (p.User.Discriminator = [] →
      (UpdatePresence m p).state.Discriminator = m.Discriminator) ∧
    (p.User.Avatar = [] →
      (UpdatePresence m p).state.Avatar = m.Avatar ∧
      (UpdatePresence m p).state.AnimatedAvatar = m.AnimatedAvatar) := by
  refine ⟨?_, ?_, ?_, ?_⟩
  · intro h
    rw [UpdatePresence_Username, if_pos h]
  · intro h
    rw [UpdatePresence_Username, if_neg h]
  · intro h
    rw [UpdatePresence_Discriminator, if_pos h]
  · intro h
    exact ⟨(UpdatePresence_avatar_nil m p h).1, (UpdatePresence_avatar_nil m p h).2.1⟩

/-- Witness of C10: the sample presence payload has empty user name, discriminator
and avatar texts and leaves those fields of the sample record; the payload with the
user name `bob` sets it. -/
theorem presence_empty_means_unchanged_witness :
    (UpdatePresence sampleRecord samplePresence).state.Username = sampleRecord.Username ∧
    (UpdatePresence sampleRecord presenceWithUsername).state.Username = goStr "bob" ∧
    (UpdatePresence sampleRecord samplePresence).state.Discriminator
      = sampleRecord.Discriminator ∧
    (UpdatePresence sampleRecord samplePresence).state.Avatar = sampleRecord.Avatar ∧
    (UpdatePresence sampleRecord samplePresence).state.AnimatedAvatar
      = sampleRecord.AnimatedAvatar :=
  ⟨(presence_empty_means_unchanged sampleRecord samplePresence).1 rfl,
   (presence_empty_means_unchanged sampleRecord presenceWithUsername).2.1 (by decide),
   (presence_empty_means_unchanged sampleRecord samplePresence).2.2.1 rfl,
   (presence_empty_means_unchanged sampleRecord samplePresence).2.2.2 rfl⟩

/-- C11, evaluated at the failing input (the status text `idle` next to an avatar
text of 34 hexadecimal digits, on a record that is online): `UpdatePresence` panics
inside `ParseAvatar`, before it reaches the status switch, and the status of the
record is still online, not idle. -/
theorem UpdatePresence_status_lost_on_long_avatar :
    presenceLongAvatar.Status = goStr "idle" ∧
    presenceLongAvatar.User.Avatar = longAvatar ∧
    sampleRecord.PresenceStatus = StatusOnline ∧
    (UpdatePresence sampleRecord presenceLongAvatar).panicked = true ∧
    (UpdatePresence sampleRecord presenceLongAvatar).state.PresenceStatus = StatusOnline ∧
    StatusOnline ≠ StatusIdle := by
  decide

/-- C14 (avatar encode format): for a hash that is not all-zero, `StrAvatar`
returns the hexadecimal text of the hash, after `a_` when the avatar is animated.
The text has 32 characters, all among `0123456789abcdef`, and the characters at
`2i` and `2i+1` are the digits of the high and the low half of byte `i`. -/
theorem avatar_encode_format (m : MemberState) (hne : m.Avatar ≠ ZeroAvatar) :
    StrAvatar m = some (if m.AnimatedAvatar then goStr "a_" ++ hexText m.Avatar.val
      else hexText m.Avatar.val) ∧
    (hexText m.Avatar.val).length = 32 ∧
    (∀ c ∈ hexText m.Avatar.val, c ∈ goStr "0123456789abcdef") ∧
    (∀ (i : Nat) (v : Byte), m.Avatar.val[i]? = some v →
      (hexText m.Avatar.val)[2 * i]? = some (hexDigit (v.val / 16)) ∧
      (hexText m.Avatar.val)[2 * i + 1]? = some (hexDigit (v.val % 16))) := by
  refine ⟨?_, ?_, hexText_mem _, hexText_getElem _⟩
  · rw [StrAvatar_eq, if_neg hne]
  · rw [hexText_length, m.Avatar.property]

/-- Witness of C14: the sample record has a non-zero hash and is animated; its
avatar text is `a_0123456789abcdeffedcba9876543210`. -/
theorem avatar_encode_format_witness :
    sampleRecord.Avatar ≠ ZeroAvatar ∧
    StrAvatar sampleRecord = some (goStr "a_0123456789abcdeffedcba9876543210") :=
  ⟨by decide, (avatar_encode_format sampleRecord (by decide)).1.trans (by decide)⟩

/-- C15 (avatar sentinel): when the hash is the all-zero value, `StrAvatar` returns
the empty string, whatever the animated flag. -/
theorem avatar_sentinel (m : MemberState) (hz : m.Avatar = ZeroAvatar) :
    StrAvatar m = some [] := by
  rw [StrAvatar_eq, if_pos hz]

/-- Witness of C15: the records without avatar, animated flag set and clear. -/
theorem avatar_sentinel_witness :
    zeroAvatarAnimated.Avatar = ZeroAvatar ∧ zeroAvatarAnimated.AnimatedAvatar = true ∧
    zeroAvatarStill.Avatar = ZeroAvatar ∧ zeroAvatarStill.AnimatedAvatar = false ∧
    StrAvatar zeroAvatarAnimated = some [] ∧ StrAvatar zeroAvatarStill = some [] :=
  ⟨rfl, rfl, rfl, rfl, avatar_sentinel zeroAvatarAnimated rfl, avatar_sentinel zeroAvatarStill rfl⟩

/-- C16 (each merge touches only its own stream's fields): `UpdateMember` leaves
`ID`, `Bot`, `PresenceStatus`, `PresenceGame` and `PresenceSet` unchanged, whatever
the user id of the payload; `UpdatePresence` leaves `ID`, `Bot`, `Roles`, `JoinedAt`
and `MemberSet` unchanged; and `ID` is the same after any run of merges. -/
theorem merges_frame (rfc3339 : GoString → Option GoTime) (m : MemberState)
    (member : Member) (p : Presence) (us : List Update) :
    ((UpdateMember rfc3339 m member).state.ID = m.ID ∧
     (UpdateMember rfc3339 m member).state.Bot = m.Bot ∧
     (UpdateMember rfc3339 m member).state.PresenceStatus = m.PresenceStatus ∧
     (UpdateMember rfc3339 m member).state.PresenceGame = m.PresenceGame ∧
     (UpdateMember rfc3339 m member).state.PresenceSet = m.PresenceSet) ∧
    ((UpdatePresence m p).state.ID = m.ID ∧
     (UpdatePresence m p).state.Bot = m.Bot ∧
     (UpdatePresence m p).state.Roles = m.Roles ∧
     (UpdatePresence m p).state.JoinedAt = m.JoinedAt ∧
     (UpdatePresence m p).state.MemberSet = m.MemberSet) ∧
    (applyUpdates rfc3339 m us).state.ID = m.ID := by
  have hm := UpdateMember_frame rfc3339 m member
  have hp := UpdatePresence_frame m p
  exact ⟨⟨hm.2.1, hm.2.2.1, hm.2.2.2.1, hm.2.2.2.2.1, hm.2.2.2.2.2⟩,
    ⟨hp.2.1, hp.2.2.1, hp.2.2.2.1, hp.2.2.2.2.1, hp.2.2.2.2.2.1⟩,
    applyUpdates_ID rfc3339 us m⟩

/-- C17 (snapshot): `Copy` of the record at address `m` returns a new address that
holds a record equal to it in every field; every record already in the store, the
original included, is as before; and an assignment to fields of the copy changes
the copy and leaves the original as it was. -/
theorem snapshot_copy (s : Store) (m : Nat) (r : MemberState) (hm : s[m]? = some r) :
    Copy r = r ∧
    ∃ s1 c, CopyAt s m = some (s1, c) ∧ s1[c]? = some r ∧ c ≠ m ∧
      (∀ (a : Nat) (x : MemberState), s[a]? = some x → s1[a]? = some x) ∧
      ∀ f : MemberState → MemberState,
        (assignAt s1 c f)[c]? = some (f r) ∧ (assignAt s1 c f)[m]? = some r := by
  have hlt : m < s.length := by
    rcases Nat.lt_or_ge m s.length with h | h
    · exact h
    · rw [List.getElem?_eq_none h] at hm
      cases hm
  have hold : ∀ (a : Nat) (x : MemberState), s[a]? = some x → (s ++ [r])[a]? = some x := by
    intro a x ha
    have hal : a < s.length := by
      rcases Nat.lt_or_ge a s.length with h | h
      · exact h
      · rw [List.getElem?_eq_none h] at ha
        cases ha
    rw [List.getElem?_append_left hal]
    exact ha
  have hc : (s ++ [r])[s.length]? = some r := by
    rw [List.getElem?_append_right (Nat.le_refl _)]
    simp
  refine ⟨rfl, s ++ [r], s.length, ?_, hc, by omega, hold, ?_⟩
  · simp only [CopyAt, hm, Copy]
  · intro f
    have hlen : s.length < (s ++ [r]).length := by simp
    simp only [assignAt, hc]
    constructor
    · rw [List.getElem?_set_self hlen]
    · rw [List.getElem?_set_ne (by omega)]
      exact hold m r hm

/-- Witness of C17: the sample record at address 0 of the sample store is copied to
address 2, and renaming the copy leaves the record at address 0 as it was. -/
theorem snapshot_copy_witness :
    sampleStore[0]? = some sampleRecord ∧
    Copy sampleRecord = sampleRecord ∧
    ∃ s1 c, CopyAt sampleStore 0 = some (s1, c) ∧ s1[c]? = some sampleRecord ∧ c ≠ 0 ∧
      (∀ (a : Nat) (x : MemberState), sampleStore[a]? = some x → s1[a]? = some x) ∧
      ∀ f : MemberState → MemberState,
        (assignAt s1 c f)[c]? = some (f sampleRecord) ∧
        (assignAt s1 c f)[0]? = some sampleRecord :=
  ⟨rfl, snapshot_copy sampleStore 0 sampleRecord rfl⟩

/-- C18 (construction agrees with merge): given that the empty text is no
timestamp, `MSFromDGoMember(gs, member)` returns a record exactly when
`UpdateMember(member)` on the new record `{Guild: gs, ID, Bot}` returns normally,
which is when the avatar text does not overflow the hash, and the two records are
equal; the record has `MemberSet` set and `PresenceSet` clear. -/
theorem construction_agrees_with_merge (rfc3339 : GoString → Option GoTime)
    (gs : Option Nat) (member : Member) (hnil : rfc3339 [] = none) :
    (UpdateMember rfc3339 (newRecord gs member.User.ID member.User.Bot) member).panicked
      = avatarOverflows member.User.Avatar ∧
    MSFromDGoMember rfc3339 gs member =
      (if (UpdateMember rfc3339 (newRecord gs member.User.ID member.User.Bot) member).panicked
       then none
       else some
        (UpdateMember rfc3339 (newRecord gs member.User.ID member.User.Bot) member).state) ∧
    (∀ r, MSFromDGoMember rfc3339 gs member = some r →
      r.MemberSet = true ∧ r.PresenceSet = false) := by
  refine ⟨UpdateMember_panicked _ _ _, ?_, ?_⟩
  · rw [UpdateMember_panicked]
    exact MSFromDGoMember_eq_UpdateMember rfc3339 gs member hnil
  · intro r hr
    rw [MSFromDGoMember_eq_UpdateMember rfc3339 gs member hnil] at hr
    cases ho : avatarOverflows member.User.Avatar
    · rw [ho] at hr
      simp only [Bool.false_eq_true, if_false, Option.some.injEq] at hr
      rw [← hr]
      exact ⟨(UpdateMember_of_fits rfc3339 _ member ho).2,
        (UpdateMember_frame rfc3339 _ member).2.2.2.2.2⟩
    · rw [ho] at hr
      simp at hr

/-- Witness of C18: the sample reading of timestamps rejects the empty text, and
the sample membership payload, with and without join time and with a join time
text that is no timestamp, builds the record that the merge on a new record gives. -/
theorem construction_agrees_with_merge_witness :
    rfc3339Sample [] = none ∧
    MSFromDGoMember rfc3339Sample (some 1) sampleMember =
      some (UpdateMember rfc3339Sample (newRecord (some 1) 42 false) sampleMember).state ∧
    MSFromDGoMember rfc3339Sample (some 1) memberNoJoinedAt =
      some (UpdateMember rfc3339Sample (newRecord (some 1) 42 false) memberNoJoinedAt).state ∧
    MSFromDGoMember rfc3339Sample (some 1) memberBadJoinedAt =
      some (UpdateMember rfc3339Sample (newRecord (some 1) 42 false) memberBadJoinedAt).state :=
  ⟨by decide,
   (construction_agrees_with_merge rfc3339Sample (some 1) sampleMember (by decide)).2.1.trans
     (by decide),
   (construction_agrees_with_merge rfc3339Sample (some 1) memberNoJoinedAt
     (by decide)).2.1.trans (by decide),
   (construction_agrees_with_merge rfc3339Sample (some 1) memberBadJoinedAt
     (by decide)).2.1.trans (by decide)⟩

/-- C19 (merges are idempotent): `UpdateMember` with a payload, applied again with
the same payload to the record it left, ends the same way and leaves the same
record; likewise `UpdatePresence`, with `PresenceGame` compared by content. -/
theorem merges_idempotent (rfc3339 : GoString → Option GoTime) (m : MemberState)
    (member : Member) (p : Presence) :
    UpdateMember rfc3339 (UpdateMember rfc3339 m member).state member =
      UpdateMember rfc3339 m member ∧
    UpdatePresence (UpdatePresence m p).state p = UpdatePresence m p :=
  ⟨UpdateMember_idem rfc3339 m member, UpdatePresence_idem m p⟩

/-- C12 (discriminator formatting): for a discriminator from 0 to 9999,
`StrDiscriminator` returns exactly 4 characters, all decimal digits, whose decimal
value is the discriminator; for a discriminator of 1000 or more it returns the
decimal digits of the number with no leading zero. -/
theorem discriminator_formatting (m : MemberState) :
    (0 ≤ m.Discriminator → m.Discriminator ≤ 9999 →
      (StrDiscriminator m).length = 4 ∧
      (∀ c ∈ StrDiscriminator m, isDigit c = true) ∧
      (decimalValue (StrDiscriminator m) : Int) = m.Discriminator) ∧
    (1000 ≤ m.Discriminator →
      (∀ c ∈ StrDiscriminator m, isDigit c = true) ∧
      (decimalValue (StrDiscriminator m) : Int) = m.Discriminator ∧
      (StrDiscriminator m).head? ≠ some 48) := by
  constructor
  · intro h0 h1
    obtain ⟨n, hn⟩ := Int.eq_ofNat_of_zero_le h0
    obtain ⟨hl, hd, hv⟩ := StrDiscriminator_four m n hn (by omega)
    exact ⟨hl, hd, by rw [hv, hn]⟩
  · intro h
    obtain ⟨n, hn⟩ := Int.eq_ofNat_of_zero_le (by omega : 0 ≤ m.Discriminator)
    have h1 : ¬ n < 10 := by omega
    have h2 : ¬ n < 100 := by omega
    have h3 : ¬ n < 1000 := by omega
    rw [StrDiscriminator_nonneg m n hn]
    simp only [h1, h2, h3, if_false, List.nil_append]
    exact ⟨decimal_isDigit n, by rw [decimal_value, hn], decimal_head n (by omega)⟩

/-- Witness of C12: the discriminators 7, 42, 123 and 4321 are in range and give
`0007`, `0042`, `0123` and `4321`. -/
theorem discriminator_formatting_witness :
    StrDiscriminator (withDiscriminator 7) = goStr "0007" ∧
    StrDiscriminator (withDiscriminator 42) = goStr "0042" ∧
    StrDiscriminator (withDiscriminator 123) = goStr "0123" ∧
    StrDiscriminator (withDiscriminator 4321) = goStr "4321" ∧
    (StrDiscriminator (withDiscriminator 7)).length = 4 ∧
    (decimalValue (StrDiscriminator (withDiscriminator 7)) : Int) = 7 ∧
    (StrDiscriminator (withDiscriminator 4321)).head? ≠ some 48 :=
  ⟨by decide, by decide, by decide, by decide,
   ((discriminator_formatting (withDiscriminator 7)).1 (by decide) (by decide)).1,
   ((discriminator_formatting (withDiscriminator 7)).1 (by decide) (by decide)).2.2,
   ((discriminator_formatting (withDiscriminator 4321)).2 (by decide)).2.2⟩

/-- C20 (export and re-ingest round trip): for a record whose discriminator is not
negative (and within `int32`, the type of the field) and whose hash is non-zero or
whose animated flag is clear, `DGoCopy` returns a payload and `MSFromDGoMember` of
that payload returns a record with the same `ID`, `Roles`, `Nick`, `Username`, `Bot`,
`Avatar`, `AnimatedAvatar` and `Discriminator`. -/
theorem export_reingest_round_trip (rfc3339 : GoString → Option GoTime)
    (format : GoTime → GoString) (gs : Option Nat) (m : MemberState)
    (h0 : 0 ≤ m.Discriminator) (h32 : m.Discriminator ≤ 2147483647)
    (hav : m.Avatar ≠ ZeroAvatar ∨ m.AnimatedAvatar = false) :
    ∃ member r, DGoCopy format m = some member ∧
      MSFromDGoMember rfc3339 gs member = some r ∧
      r.ID = m.ID ∧ r.Roles = m.Roles ∧ r.Nick = m.Nick ∧ r.Username = m.Username ∧
      r.Bot = m.Bot ∧ r.Avatar = m.Avatar ∧ r.AnimatedAvatar = m.AnimatedAvatar ∧
      r.Discriminator = m.Discriminator := by
  obtain ⟨n, hn⟩ := Int.eq_ofNat_of_zero_le h0
  have hn32 : n ≤ 2147483647 := by omega
  have hparse := ParseInt_StrDiscriminator m n hn hn32
  have hs := StrAvatar_eq m
  generalize htext : (if m.Avatar = ZeroAvatar then ([] : GoString)
      else if m.AnimatedAvatar = true then goStr "a_" ++ hexText m.Avatar.val
      else hexText m.Avatar.val) = text at hs
  have hpa := fun dst hdst => ParseAvatar_StrAvatar dst m text hs hav hdst
  refine ⟨{ User := { ID := m.ID, Username := m.Username, Bot := m.Bot, Avatar := text,
                      Discriminator := StrDiscriminator m },
            Nick := m.Nick, Roles := m.Roles, JoinedAt := format m.JoinedAt }, ?_⟩
  simp only [DGoCopy, DGoUser, hs, MSFromDGoMember, hparse]
  rw [hpa _ rfl]
  simp only [Bool.false_eq_true, if_false, toInt32_small n hn32, hn]
  exact ⟨_, trivial, rfl, rfl, rfl, rfl, rfl, rfl, rfl, rfl, rfl⟩

/-- Witness of C20: the sample record (discriminator 7, animated avatar with a
non-zero hash) is exported and read back with the eight fields as they were. -/
theorem export_reingest_round_trip_witness :
    0 ≤ sampleRecord.Discriminator ∧ sampleRecord.Discriminator ≤ 2147483647 ∧
    sampleRecord.Avatar ≠ ZeroAvatar ∧
    ∃ member r, DGoCopy formatSample sampleRecord = some member ∧
      MSFromDGoMember rfc3339Sample (some 1) member = some r ∧
      r.ID = sampleRecord.ID ∧ r.Roles = sampleRecord.Roles ∧ r.Nick = sampleRecord.Nick ∧
      r.Username = sampleRecord.Username ∧ r.Bot = sampleRecord.Bot ∧
      r.Avatar = sampleRecord.Avatar ∧ r.AnimatedAvatar = sampleRecord.AnimatedAvatar ∧
      r.Discriminator = sampleRecord.Discriminator :=
  ⟨by decide, by decide, by decide,
   export_reingest_round_trip rfc3339Sample formatSample (some 1) sampleRecord
     (by decide) (by decide) (Or.inl (by decide))⟩

/-- C13, counterexample: a membership payload with the discriminator text `12345`
builds a record with discriminator 12345, formatted as the five characters `12345`;
and a presence payload with the text `-5` leaves the sample record with
discriminator -5, formatted as `000-5`. -/
theorem discriminator_invariant_counterexample :
    (MSFromDGoMember rfc3339Sample (some 1) memberFiveDigits).map
      (fun r => r.Discriminator) = some 12345 ∧
    (MSFromDGoMember rfc3339Sample (some 1) memberFiveDigits).map StrDiscriminator
      = some (goStr "12345") ∧
    (UpdatePresence sampleRecord presenceNegative).panicked = false ∧
    (UpdatePresence sampleRecord presenceNegative).state.Discriminator = -5 ∧
    StrDiscriminator (UpdatePresence sampleRecord presenceNegative).state = goStr "000-5" := by
  decide

/-- C13, amended: for a record that `MSFromDGoMember` returned and any run of
merges on it, if the discriminator text of the constructing payload, of every
membership payload and of every presence payload with a non-empty discriminator
text parses to a value from 0 to 9999, then the discriminator is from 0 to 9999 and
`StrDiscriminator` is exactly 4 decimal digits. -/
theorem discriminator_invariant_in_range (rfc3339 : GoString → Option GoTime)
    (gs : Option Nat) (member : Member) (r : MemberState) (us : List Update)
    (hnew : MSFromDGoMember rfc3339 gs member = some r)
    (hfirst : discriminatorInRange member.User.Discriminator = true)
    (hrun : ∀ u ∈ us, updateInRange u = true) :
    0 ≤ (applyUpdates rfc3339 r us).state.Discriminator ∧
    (applyUpdates rfc3339 r us).state.Discriminator ≤ 9999 ∧
    (StrDiscriminator (applyUpdates rfc3339 r us).state).length = 4 ∧
    (∀ c ∈ StrDiscriminator (applyUpdates rfc3339 r us).state, isDigit c = true) := by
  have hr := MSFromDGoMember_some_Discriminator rfc3339 gs member r hnew
  have h0 : 0 ≤ r.Discriminator ∧ r.Discriminator ≤ 9999 := by
    rw [hr]
    exact (discriminatorInRange_iff _).1 hfirst
  obtain ⟨hlo, hhi⟩ := applyUpdates_inRange rfc3339 us r h0 hrun
  obtain ⟨n, hn⟩ := Int.eq_ofNat_of_zero_le hlo
  obtain ⟨hl, hd, _⟩ := StrDiscriminator_four (applyUpdates rfc3339 r us).state n hn (by omega)
  exact ⟨hlo, hhi, hl, hd⟩

/-- Witness of C13: the sample membership payload (text `0007`) builds a record, and
after a presence merge with the text `0042` and a membership merge with `0007` the
discriminator is in range and formatted with 4 digits. -/
theorem discriminator_invariant_in_range_witness :
    discriminatorInRange sampleMember.User.Discriminator = true ∧
    updateInRange (Update.presence presenceDiscriminator42) = true ∧
    updateInRange (Update.member sampleMember) = true ∧
    (∃ r, MSFromDGoMember rfc3339Sample (some 1) sampleMember = some r ∧
      0 ≤ (applyUpdates rfc3339Sample r
        [Update.presence presenceDiscriminator42, Update.member sampleMember]).state.Discriminator ∧
      (applyUpdates rfc3339Sample r
        [Update.presence presenceDiscriminator42, Update.member sampleMember]).state.Discriminator
          ≤ 9999 ∧
      (StrDiscriminator (applyUpdates rfc3339Sample r
        [Update.presence presenceDiscriminator42, Update.member sampleMember]).state).length = 4 ∧
      (∀ c ∈ StrDiscriminator (applyUpdates rfc3339Sample r
        [Update.presence presenceDiscriminator42, Update.member sampleMember]).state,
        isDigit c = true)) :=
  ⟨by decide, by decide, by decide,
   (UpdateMember rfc3339Sample (newRecord (some 1) 42 false) sampleMember).state, by decide,
   discriminator_invariant_in_range rfc3339Sample (some 1) sampleMember _
     [Update.presence presenceDiscriminator42, Update.member sampleMember]
     (by decide) (by decide) (by decide)⟩

end Dstate
